import Mathlib

/-!
# Verification of `django-virtual-models` core algorithms

A shallow embedding, in Lean 4, of the lookup-resolution and
queryset-hydration engine of the `django_virtual_models` package:

* `utils.py` — path utilities over dotted lookup strings
  (`unique_keep_order`, `one_level_lookup`, `one_level_lookup_list`,
  `str_remove_prefix`);
* `fields.py` — the virtual field tree (`NoOp`, `Expression`, `Annotation`,
  `NestedJoin`, `VirtualModel`), `_defer_fields`, the metaclass field
  collection `_get_declared_fields`, `VirtualModel.__init__` / `bind` /
  `hydrate_queryset` / `get_optimized_queryset`;
* `prefetch/serializer_optimization.py` — the `LookupFinder` resolver;
* `prefetch/hints.py` — the on/off query-blocking decorators;
* `query_capture/capture.py` — the scoped query-interception hook.

Python strings are embedded as `List Char` (`PStr`): Python `str` is a
sequence of characters, and this representation lets prefix / infix /
split-on-separator facts be stated and proved directly.  Python sets are
embedded as lists with a fixed iteration order (only membership in them is
ever relied on by the theorems).  Fallible Python code is embedded in
`Except`, with one error constructor per exception class raised by the
source.
-/

set_option maxHeartbeats 1000000

namespace DjangoVirtualModels

/-- Embedding of Python `str` as a list of characters. -/
abbrev PStr := List Char

/-- Helper to write `PStr` literals. -/
def pstr (s : String) : PStr := s.data

/-- The lookup-path separator `"__"` (double underscore). -/
def sep : PStr := pstr "__"

/-! ## `utils.py` -/

/-- `utils.unique_keep_order(ls) = list({x: None for x in ls}.keys())`.
A Python dict keeps first-insertion order for keys, and inserting an
existing key does not move it; so the result is `ls` deduplicated keeping
the first occurrence of each element.  Embedded as the corresponding
left fold over an accumulator of already-seen keys. -/
def unique_keep_order {α : Type} [DecidableEq α] (ls : List α) : List α :=
  ls.foldl (fun acc x => if x ∈ acc then acc else acc ++ [x]) []

/-- The prefix of `s` strictly before the first occurrence of `sp`
(all of `s` when `sp` does not occur).  This is `s.split(sp)[0]` in
Python: `split` cuts at the leftmost occurrence of the separator first,
so the head of the resulting list is exactly the text before it. -/
def firstComponent (sp : PStr) : PStr → PStr
  | [] => []
  | c :: cs => if sp.isPrefixOf (c :: cs) then [] else c :: firstComponent sp cs

/-- `utils.one_level_lookup(lookup) = lookup.split("__")[0]`. -/
def one_level_lookup (lookup : PStr) : PStr :=
  firstComponent sep lookup

/-- `utils.one_level_lookup_list(lookup_list)`:
`unique_keep_order(one_level_lookup(lookup) for lookup in lookup_list)`. -/
def one_level_lookup_list (lookup_list : List PStr) : List PStr :=
  unique_keep_order (lookup_list.map one_level_lookup)

/-- `utils.str_remove_prefix(s, prefix)`: drop `prefix` from the front of
`s` when `s.startswith(prefix)`, otherwise return `s` unchanged. -/
def str_remove_prefix (s pre : PStr) : PStr :=
  if pre.isPrefixOf s then s.drop pre.length else s

/-! ### Facts about the path utilities -/

/-- `firstComponent` returns a prefix of its input. -/
theorem firstComponent_isPrefixOf (sp : PStr) (s : PStr) :
    (firstComponent sp s).IsPrefix s := by
  induction s with
  | nil => simp [firstComponent]
  | cons c cs ih =>
    by_cases h : sp.isPrefixOf (c :: cs)
    · simp [firstComponent, h]
    · simpa [firstComponent, h] using ih

/-- `firstComponent` is idempotent: the first component contains no
occurrence of the separator, so re-splitting it returns it unchanged. -/
theorem firstComponent_idem (sp : PStr) (s : PStr) :
    firstComponent sp (firstComponent sp s) = firstComponent sp s := by
  induction s with
  | nil => simp [firstComponent]
  | cons c cs ih =>
    by_cases h : sp.isPrefixOf (c :: cs)
    · simp [firstComponent, h]
    · have hpre : ¬ sp.isPrefixOf (c :: firstComponent sp cs) := by
        intro hcontra
        apply h
        have h1 : sp <+: (c :: firstComponent sp cs) :=
          List.isPrefixOf_iff_prefix.mp hcontra
        have h2 : (c :: firstComponent sp cs) <+: (c :: cs) :=
          List.cons_prefix_cons.mpr ⟨rfl, firstComponent_isPrefixOf sp cs⟩
        exact List.isPrefixOf_iff_prefix.mpr (h1.trans h2)
      simp only [firstComponent, h, if_false, hpre]
      exact congrArg (c :: ·) ih

theorem one_level_lookup_idem (l : PStr) :
    one_level_lookup (one_level_lookup l) = one_level_lookup l :=
  firstComponent_idem sep l

/-! Facts about `unique_keep_order` (the dict-comprehension dedup). -/

theorem unique_keep_order_go_nodup {α : Type} [DecidableEq α]
    (l : List α) (acc : List α) (hacc : acc.Nodup) :
    (l.foldl (fun acc x => if x ∈ acc then acc else acc ++ [x]) acc).Nodup := by
  induction l generalizing acc with
  | nil => simpa using hacc
  | cons x xs ih =>
    simp only [List.foldl_cons]
    by_cases h : x ∈ acc
    · simpa [h] using ih acc hacc
    · have : (acc ++ [x]).Nodup := by
        simp [List.nodup_append, hacc, h]
      simpa [h] using ih (acc ++ [x]) this

theorem unique_keep_order_nodup {α : Type} [DecidableEq α] (l : List α) :
    (unique_keep_order l).Nodup :=
  unique_keep_order_go_nodup l [] List.nodup_nil

theorem unique_keep_order_go_mem {α : Type} [DecidableEq α]
    (l : List α) (acc : List α) (y : α) :
    y ∈ l.foldl (fun acc x => if x ∈ acc then acc else acc ++ [x]) acc ↔
      y ∈ acc ∨ y ∈ l := by
  induction l generalizing acc with
  | nil => simp
  | cons x xs ih =>
    simp only [List.foldl_cons]
    by_cases h : x ∈ acc
    · rw [if_pos h, ih]
      constructor
      · rintro (hy | hy)
        · exact Or.inl hy
        · exact Or.inr (List.mem_cons_of_mem _ hy)
      · rintro (hy | hy)
        · exact Or.inl hy
        · rcases List.mem_cons.mp hy with rfl | hy
          · exact Or.inl h
          · exact Or.inr hy
    · rw [if_neg h, ih]
      simp only [List.mem_append, List.mem_singleton, List.mem_cons]
      tauto

theorem unique_keep_order_mem {α : Type} [DecidableEq α] (l : List α) (y : α) :
    y ∈ unique_keep_order l ↔ y ∈ l := by
  unfold unique_keep_order
  rw [unique_keep_order_go_mem]
  simp

/-- On a duplicate-free list, the dict-comprehension dedup is the
identity (generalized over the accumulator). -/
theorem unique_keep_order_go_of_nodup {α : Type} [DecidableEq α]
    (l : List α) (acc : List α) (h : (acc ++ l).Nodup) :
    l.foldl (fun acc x => if x ∈ acc then acc else acc ++ [x]) acc = acc ++ l := by
  induction l generalizing acc with
  | nil => simp
  | cons x xs ih =>
    have hx : x ∉ acc := by
      intro hmem
      have := (List.nodup_append.mp h).2.2
      exact this hmem (List.mem_cons_self x xs)
    simp only [List.foldl_cons, if_neg hx]
    have : ((acc ++ [x]) ++ xs).Nodup := by
      simpa using h
    rw [ih (acc ++ [x]) this]
    simp

theorem unique_keep_order_of_nodup {α : Type} [DecidableEq α]
    (l : List α) (h : l.Nodup) : unique_keep_order l = l := by
  simpa using unique_keep_order_go_of_nodup l [] (by simpa using h)

/-- First-occurrence dedup by direct recursion: keep the head, drop all
later occurrences of it, recurse.  Used as the transparent statement of
"each element exactly once, in first-occurrence order". -/
def firstOccurrenceDedup {α : Type} [DecidableEq α] : List α → List α
  | [] => []
  | x :: xs => x :: firstOccurrenceDedup (xs.filter (fun y => y ≠ x))
termination_by l => l.length
decreasing_by
  simp only [List.length_cons]
  exact Nat.lt_succ_of_le (xs.length_filter_le _)

theorem unique_keep_order_go_eq_firstOccurrenceDedup {α : Type} [DecidableEq α]
    (l : List α) (acc : List α) :
    l.foldl (fun acc x => if x ∈ acc then acc else acc ++ [x]) acc =
      acc ++ firstOccurrenceDedup (l.filter (fun y => y ∉ acc)) := by
  induction l generalizing acc with
  | nil => simp [firstOccurrenceDedup]
  | cons x xs ih =>
    simp only [List.foldl_cons, List.filter_cons]
    by_cases hx : x ∈ acc
    · have hdec : (decide (x ∉ acc)) = false := by simp [hx]
      rw [if_pos hx, hdec]
      simp only [Bool.false_eq_true, if_false]
      exact ih acc
    · have hdec : (decide (x ∉ acc)) = true := by simp [hx]
      rw [if_neg hx, hdec]
      simp only [if_true]
      rw [ih (acc ++ [x])]
      have hf : xs.filter (fun y => decide (y ∉ acc ++ [x])) =
          (xs.filter (fun y => decide (y ∉ acc))).filter (fun y => decide (y ≠ x)) := by
        rw [List.filter_filter]
        apply List.filter_congr
        intro y _
        by_cases hyx : y = x
        · subst hyx; simp
        · by_cases hya : y ∈ acc <;> simp [hyx, hya]
      rw [firstOccurrenceDedup, ← hf]
      simp

/-- `unique_keep_order` computes exactly the first-occurrence dedup. -/
theorem unique_keep_order_eq_firstOccurrenceDedup {α : Type} [DecidableEq α]
    (l : List α) : unique_keep_order l = firstOccurrenceDedup l := by
  have := unique_keep_order_go_eq_firstOccurrenceDedup l []
  simpa [unique_keep_order] using this

theorem map_id_of_mem {α : Type} (f : α → α) (l : List α)
    (h : ∀ x ∈ l, f x = x) : l.map f = l := by
  induction l with
  | nil => rfl
  | cons x xs ih =>
    simp only [List.map_cons, h x (List.mem_cons_self x xs)]
    rw [ih (fun y hy => h y (List.mem_cons_of_mem x hy))]

/-- Applying `one_level_lookup_list` a second time changes nothing. -/
theorem one_level_lookup_list_idem (l : List PStr) :
    one_level_lookup_list (one_level_lookup_list l) = one_level_lookup_list l := by
  unfold one_level_lookup_list
  have hmap : (unique_keep_order (l.map one_level_lookup)).map one_level_lookup =
      unique_keep_order (l.map one_level_lookup) := by
    apply map_id_of_mem
    intro x hx
    have hx' : x ∈ l.map one_level_lookup :=
      (unique_keep_order_mem _ x).mp hx
    rcases List.mem_map.mp hx' with ⟨y, _, rfl⟩
    exact one_level_lookup_idem y
  rw [hmap]
  exact unique_keep_order_of_nodup _ (unique_keep_order_nodup _)

/-! ## `fields.py` — data model

The Django ORM is an external collaborator; its objects are embedded at
their interface:

* a *model class* (`MRef`) carries the data the library reads from it:
  `utils.get_model_concrete_fields` (the set of concrete `attname`s,
  embedded as a list fixing the set's iteration order),
  the model-level part of `utils.get_select_related_choices`
  (direct relational field names plus unique reverse names), the default
  manager, and the descriptors `getattr(model_cls, name)` returns
  (the library only distinguishes `ReverseManyToOneDescriptor`, read for
  its `rel.field.name`);
* a *queryset* (`QS`) is a term recording the operations the library
  performed on it (`defer`, `select_related`, `annotate`,
  `prefetch_related`, and the application of a user-supplied
  `Annotation` callable, which is uninterpreted);
* `**kwargs` dicts are ordered association lists (`Kw`) with Python's
  `{**a, **b}` merge semantics. -/

/-- What `getattr(model_cls, field_name)` is, as far as
`VirtualModel.hydrate_queryset` inspects it. -/
inductive DescriptorKind where
  | reverseManyToOne (relFieldName : PStr)
  | otherDescriptor
deriving DecidableEq

/-- A Django model class, at the interface this library consumes. -/
structure MRef where
  name : PStr
  /-- `utils.get_model_concrete_fields(model_cls)` (a Python set;
  embedded with a fixed iteration order). -/
  concreteFields : List PStr
  /-- The model-derived part of `utils.get_select_related_choices`:
  `f.name` for relational fields plus `related_query_name()` for unique
  reverse relations. -/
  selectRelatedModelChoices : List PStr
  /-- Descriptors found by `getattr(model_cls, name)`. -/
  descriptors : List (PStr × DescriptorKind)
  /-- `model_cls._default_manager`, by id. -/
  defaultManagerId : Nat
deriving DecidableEq

/-- A Django manager (`VirtualModel(manager=...)`). -/
structure ManagerRef where
  id : Nat
  model : MRef
deriving DecidableEq

/-- A Python `**kwargs` dict: ordered keys, opaque values. -/
abbrev Kw := List (PStr × Nat)

/-- Python `{**a, **b}`: keys of `a` (values overridden by `b` on
collision) followed by keys of `b` not in `a`, in order. -/
def pyDictMerge (a b : Kw) : Kw :=
  a.map (fun p => match b.find? (fun q => q.1 = p.1) with
    | some q => (p.1, q.2)
    | none => p) ++
  b.filter (fun q => (a.find? (fun p => p.1 = q.1)).isNone)

/-- A Django queryset, as the term of operations applied to it. -/
inductive QS where
  | base (managerId : Nat) (filteredRelations : List PStr)
  | defer (q : QS) (fields : List PStr)
  | selectRelated (q : QS) (field : PStr)
  | annotate (q : QS) (name : PStr) (exprId : Nat)
  /-- Application of a user-supplied `Annotation` callable
  `func(qs, user=user, **kwargs)`; the callable is uninterpreted, its
  invocation is recorded. -/
  | applyFunc (q : QS) (funcId : Nat) (user : Option Nat) (kw : Kw)
  | prefetchRelated (q : QS) (lookup : PStr) (pqs : QS) (toAttr : Option PStr)
deriving DecidableEq

/-- `qs.query._filtered_relations`: carried by the base queryset and
unchanged by the recorded operations. -/
def QS.filteredRelations : QS → List PStr
  | .base _ fr => fr
  | .defer q _ => q.filteredRelations
  | .selectRelated q _ => q.filteredRelations
  | .annotate q _ _ => q.filteredRelations
  | .applyFunc q _ _ _ => q.filteredRelations
  | .prefetchRelated q _ _ _ => q.filteredRelations

/-- `utils.get_select_related_choices(qs, model_cls)` (a Python set;
embedded with a fixed iteration order). -/
def get_select_related_choices (qs : QS) (m : MRef) : List PStr :=
  m.selectRelatedModelChoices ++ qs.filteredRelations

/-- The defect reported by an `ImproperlyAnnotatedCodeException` from
the hint-extraction helpers (each value corresponds to one distinct
message in the source). -/
inductive HintDefect where
  /-- `len(type_hints_dict) == 0`: no annotated parameter at all. -/
  | noAnnotatedParam
  /-- `len(type_hints_dict) > 1`: more than one annotated parameter. -/
  | multipleParams
  /-- `_validate_type_hint` failure: not `Annotated`, or not exactly one
  `hints.Virtual` inside it. -/
  | wrongShape
  /-- `from_types_of`: the referenced function has no annotated
  parameter of the given name. -/
  | paramNotFound
deriving DecidableEq

/-- The exception classes raised by the embedded code.  Exceptions whose
message a claim is about carry the rendered message; the resolver's
exceptions carry the f-string parameters of their raise site instead. -/
inductive Err where
  | invalidLookup (msg : PStr)
  | invalidField (msg : PStr)
  | invalidVirtualModelParams (msg : PStr)
  | attributeError (attr : PStr)
  | recursionError
  /-- `LookupFinder.CantHandleException`. -/
  | cantHandle
  /-- `MissingVirtualModelFieldException` from
  `_extract_lookups_from_nested_serializer`: a `NestedJoin` cannot back
  a nested serializer. -/
  | nestedJoinForNestedSerializer (fieldName : PStr) (parentVMClsName : PStr)
      (parentSerializerName : PStr)
  /-- `MissingVirtualModelFieldException` from
  `_extract_lookups_from_nested_serializer`: the nested serializer's
  field name is not declared on the matching virtual model. -/
  | missingVMFieldNested (fieldName : PStr) (vmClsName : PStr)
      (parentSerializerName : PStr)
  /-- `ImproperlyAnnotatedCodeException` from the hint-extraction
  helpers. -/
  | missingHintsDeclaration (friendlyName : PStr) (serializerName : PStr)
      (defect : HintDefect)
  /-- `ImproperlyAnnotatedCodeException` from `_maybe_handle_url_field`:
  hyperlinked fields are unsupported. -/
  | urlFieldUnsupported (friendlyName : PStr) (serializerName : PStr)
  /-- `MissingVirtualModelFieldException` from `_validate_lookup_list`
  (property-field variant). -/
  | propertyFieldNotDefined (k : PStr) (friendlyName : PStr)
      (serializerName : PStr) (vmClsName : PStr)
  /-- `MissingVirtualModelFieldException` from `_validate_lookup_list`
  (other non-concrete variant). -/
  | nonConcreteFieldNotDefined (k : PStr) (friendlyName : PStr)
      (serializerName : PStr) (vmClsName : PStr)
  /-- `MissingVirtualModelFieldException` from the unassigned-handler
  fallback of `recursively_find_lookup_list`. -/
  | fieldMustBeDefined (fieldName : PStr) (serializerName : PStr)
      (vmClsName : PStr) (parentVMClsName : Option PStr)
  /-- The `raise Exception("Unknown decorator, ...")` branch of
  `_extract_lookups_from_function_type_hint`. -/
  | unknownDecorator
deriving DecidableEq

/-! ### `_defer_fields` -/

/-- The argument list Python passes to `qs.defer(*...)`:
`set(deferred_fields) - set(one_level_lookup_list(lookup_list))`
(a set; embedded keeping first-occurrence order). -/
def actual_deferred_fields (lookup_list deferred_fields : List PStr) : List PStr :=
  unique_keep_order
    (deferred_fields.filter (fun d => d ∉ one_level_lookup_list lookup_list))

/-- `fields._defer_fields(qs, lookup_list, deferred_fields)`: defer the
configured fields minus the one-level requested ones; call `qs.defer`
only when that set is non-empty. -/
def defer_fields (qs : QS) (lookup_list deferred_fields : List PStr) : QS :=
  let actual := actual_deferred_fields lookup_list deferred_fields
  if actual = [] then qs else QS.defer qs actual

/-! ### The virtual field tree -/

mutual
/-- `BaseVirtualField` variants.  The late-bound `field_name` / `parent`
attributes set by `bind()` are supplied as explicit arguments at
hydration time (two-phase construction of the same data). -/
inductive VField where
  | noOp
  | expression (exprId : Nat)
  | annotationField (funcId : Nat)
  | nestedJoin (modelCls : MRef)
  | vmodel (vm : VModel)

/-- A constructed `VirtualModel` instance: class-level data
(`__class__.__name__`, `_declared_fields`, `Meta`) together with the
`__init__` arguments. -/
inductive VModel where
  | mk (clsName : PStr) (modelCls : MRef) (managerId : Nat)
      (declaredFields : List (PStr × VField))
      (lookup : Option PStr) (toAttr : Option PStr)
      (deferredFields : List PStr)
      (extraKwargs : Kw)
      (user : Option Nat)
end

instance : Inhabited VField := ⟨VField.noOp⟩
instance : Nonempty VField := ⟨VField.noOp⟩

def VModel.clsName : VModel → PStr
  | .mk c _ _ _ _ _ _ _ _ => c

def VModel.modelCls : VModel → MRef
  | .mk _ m _ _ _ _ _ _ _ => m

def VModel.managerId : VModel → Nat
  | .mk _ _ i _ _ _ _ _ _ => i

def VModel.declaredFields : VModel → List (PStr × VField)
  | .mk _ _ _ d _ _ _ _ _ => d

def VModel.lookup : VModel → Option PStr
  | .mk _ _ _ _ l _ _ _ _ => l

def VModel.toAttr : VModel → Option PStr
  | .mk _ _ _ _ _ t _ _ _ => t

def VModel.deferredFields : VModel → List PStr
  | .mk _ _ _ _ _ _ d _ _ => d

def VModel.extraKwargs : VModel → Kw
  | .mk _ _ _ _ _ _ _ k _ => k

def VModel.user : VModel → Option Nat
  | .mk _ _ _ _ _ _ _ _ u => u

/-- `VirtualModel.__init__`.  `metaModel` is `Meta.model` (with
"attribute absent" and "attribute `None`" both `none`), `metaDeferredFields`
is `Meta.deferred_fields`.  The class-level `_declared_fields` and
`__class__.__name__` are passed alongside the constructor arguments. -/
def virtualModelInit (clsName : PStr) (declaredFields : List (PStr × VField))
    (metaModel : Option MRef) (metaDeferredFields : Option (List PStr))
    (user : Option Nat) (manager : Option ManagerRef)
    (lookup : Option PStr) (toAttr : Option PStr) (kwargs : Kw) :
    Except Err VModel :=
  if manager.isNone ∧ metaModel.isNone then
    .error (.invalidVirtualModelParams (pstr "Always provide a `manager` or `Meta.model`"))
  else if toAttr.isSome ∧ lookup.isNone then
    .error (.invalidVirtualModelParams (pstr "Always provide a `lookup` when providing a `to_attr`"))
  else
    match manager, metaModel with
    | some mg, _ =>
        .ok (.mk clsName mg.model mg.id declaredFields lookup toAttr
          (metaDeferredFields.getD []) kwargs user)
    | none, some mm =>
        .ok (.mk clsName mm mm.defaultManagerId declaredFields lookup toAttr
          (metaDeferredFields.getD []) kwargs user)
    | none, none =>
        .error (.invalidVirtualModelParams (pstr "Always provide a `manager` or `Meta.model`"))

/-- `VirtualModel.bind(field_name, parent)`: in addition to recording
`field_name` / `parent` (passed explicitly at hydration in this
embedding), defaults `to_attr` to the field name when a `lookup` was
given without a `to_attr`. -/
def VModel.bind (vm : VModel) (fieldName : PStr) : VModel :=
  match vm with
  | .mk c m i d l t df k u =>
    if l.isSome ∧ t.isNone then .mk c m i d l (some fieldName) df k u
    else .mk c m i d l t df k u

/-- Python truthiness of `self.lookup` (`None` and `""` are falsy). -/
def VModel.lookupTruthy (vm : VModel) : Option PStr :=
  match vm.lookup with
  | some l => if l = [] then none else some l
  | none => none

/-! ### `NestedJoin.hydrate_queryset` -/

/-- Python `sep.join(parts)`. -/
def pyJoin (s : PStr) : List PStr → PStr
  | [] => []
  | [c] => c
  | c :: cs => c ++ s ++ pyJoin s cs

/-- The message of the `InvalidLookupException` raised by
`NestedJoin.hydrate_queryset`, built exactly as the source f-string
(`', '.join(select_related_choices) or '(none)'`). -/
def nestedJoinInvalidLookupMsg (kOneLevel fieldName parentClsName : PStr)
    (choices : List PStr) : PStr :=
  let joined := pyJoin (pstr ", ") choices
  pstr "`" ++ kOneLevel ++ pstr "` cannot be used as a lookup for `" ++
    fieldName ++ pstr " = NestedJoin(...)` used by `" ++ parentClsName ++
    pstr "`. Choices are " ++
    (if joined = [] then pstr "(none)" else joined) ++ pstr ". "

/-- The per-lookup loop of `NestedJoin.hydrate_queryset`. -/
def nestedJoinHydrateGo (modelConcreteFields choices : List PStr)
    (fieldName parentClsName : PStr) : QS → List PStr → Except Err QS
  | q, [] => .ok q
  | q, k :: ks =>
    if k ∈ modelConcreteFields then
      nestedJoinHydrateGo modelConcreteFields choices fieldName parentClsName q ks
    else
      let kOneLevel := one_level_lookup k
      if kOneLevel ∈ choices then
        nestedJoinHydrateGo modelConcreteFields choices fieldName parentClsName
          (QS.selectRelated q (fieldName ++ sep ++ k)) ks
      else
        .error (.invalidLookup
          (nestedJoinInvalidLookupMsg kOneLevel fieldName parentClsName choices))

/-- `NestedJoin.hydrate_queryset(qs, lookup_list, ...)`: `select_related`
the join itself, then for each requested sub-path that is not a concrete
field of the joined model, validate its first segment against the
select-related choices and `select_related` the nested path; raise
`InvalidLookupException` otherwise. -/
def nestedJoinHydrate (m : MRef) (fieldName parentClsName : PStr)
    (qs : QS) (lookup_list : List PStr) : Except Err QS :=
  let modelConcreteFields := m.concreteFields
  let choices := get_select_related_choices qs m
  nestedJoinHydrateGo modelConcreteFields choices fieldName parentClsName
    (QS.selectRelated qs fieldName) lookup_list

/-! ### `VirtualModel` hydration -/

/-- The `InvalidLookupException` message of
`_hydrate_queryset_with_nested_declared_fields` for an undeclared
non-concrete lookup `k`; `binding` is `(self.field_name,
self.parent.__class__.__name__)` when the node is bound, `none` at the
root. -/
def notDeclaredMsg (k : PStr) (clsName : PStr) (binding : Option (PStr × PStr)) : PStr :=
  match binding with
  | some (fieldName, parentClsName) =>
      pstr "`" ++ k ++ pstr "` not declared in `" ++ fieldName ++ pstr " = " ++
        clsName ++ pstr "(...)` used by `" ++ parentClsName ++ pstr "`"
  | none =>
      pstr "`" ++ k ++ pstr "` not declared in `" ++ clsName ++ pstr "`"

mutual
/-- Polymorphic `hydrate_queryset` dispatch on a bound field.
`fieldName` / `parentClsName` / `parentModel` are the data `bind()`
recorded (`self.field_name`, `self.parent.__class__.__name__`,
`self.parent.model_cls`).  `fuel` bounds the recursion depth, mirroring
Python's recursion limit; every embedded call consumes one unit, and it
only runs out on inputs on which the source itself would not return. -/
def hydrateVF (fuel : Nat) (f : VField) (fieldName parentClsName : PStr)
    (parentModel : MRef) (qs : QS) (lookup_list : List PStr)
    (user : Option Nat) (kwargs : Kw) : Except Err QS :=
  match fuel with
  | 0 => .error .recursionError
  | Nat.succ fl =>
    match f with
    | .noOp => .ok qs
    | .expression e => .ok (QS.annotate qs fieldName e)
    | .annotationField funcId => .ok (QS.applyFunc qs funcId user kwargs)
    | .nestedJoin m => nestedJoinHydrate m fieldName parentClsName qs lookup_list
    | .vmodel vm =>
        vmodelHydratePrefetch fl (vm.bind fieldName) fieldName parentClsName
          parentModel qs lookup_list user kwargs

/-- `VirtualModel.hydrate_queryset`: full-prefetch expansion of an empty
lookup list, child-queryset hydration, forced inclusion of the reverse
FK back-reference, deferral and `prefetch_related`. -/
def vmodelHydratePrefetch (fuel : Nat) (vm : VModel)
    (fieldName parentClsName : PStr) (parentModel : MRef) (qs : QS)
    (lookup_list : List PStr) (user : Option Nat) (kwargs : Kw) :
    Except Err QS :=
  match fuel with
  | 0 => .error .recursionError
  | Nat.succ fl =>
    -- if lookup_list is empty, consider as full prefetch
    let newLookupList :=
      if lookup_list = [] then
        vm.modelCls.concreteFields ++ vm.declaredFields.map Prod.fst
      else lookup_list
    -- get_prefetch_queryset: self.manager.all()
    let pq0 := QS.base vm.managerId []
    match hydrateNestedDeclaredFields fl vm (some (fieldName, parentClsName))
        pq0 newLookupList user kwargs with
    | .error e => .error e
    | .ok pq =>
      -- always include the "back reference" field name in the Prefetch's
      -- lookup list (reverse many-to-one descriptors only)
      let fieldToPrefetch := vm.lookupTruthy.getD fieldName
      match parentModel.descriptors.find? (fun p => p.1 = fieldToPrefetch) with
      | none => .error (.attributeError fieldToPrefetch)
      | some (_, d) =>
        let newLookupList2 :=
          match d with
          | .reverseManyToOne backRef => newLookupList ++ [backRef]
          | .otherDescriptor => newLookupList
        let pq2 := defer_fields pq newLookupList2 vm.deferredFields
        -- _build_prefetch + prefetch_related
        match vm.lookupTruthy with
        | some l => .ok (QS.prefetchRelated qs l pq2 vm.toAttr)
        | none => .ok (QS.prefetchRelated qs fieldName pq2 none)

/-- `VirtualModel._hydrate_queryset_with_nested_declared_fields`.
`selfBinding` is `some (self.field_name, self.parent.__class__.__name__)`
when the node is bound, `none` at the root. -/
def hydrateNestedDeclaredFields (fuel : Nat) (vm : VModel)
    (selfBinding : Option (PStr × PStr)) (qs : QS) (lookup_list : List PStr)
    (user : Option Nat) (kwargs : Kw) : Except Err QS :=
  match fuel with
  | 0 => .error .recursionError
  | Nat.succ fl =>
    let kw := pyDictMerge kwargs vm.extraKwargs
    hydrateNestedGo fl vm selfBinding qs (one_level_lookup_list lookup_list)
      lookup_list user kw

/-- The `for k in utils.one_level_lookup_list(lookup_list)` loop of
`_hydrate_queryset_with_nested_declared_fields`: skip concrete fields,
look the key up among the declared fields (raising
`InvalidLookupException` when absent), and hydrate with the sub-paths
beneath the key. -/
def hydrateNestedGo (fuel : Nat) (vm : VModel)
    (selfBinding : Option (PStr × PStr)) (qs : QS) (keys : List PStr)
    (lookup_list : List PStr) (user : Option Nat) (kw : Kw) :
    Except Err QS :=
  match fuel with
  | 0 => .error .recursionError
  | Nat.succ fl =>
    match keys with
    | [] => .ok qs
    | k :: ks =>
      if k ∈ vm.modelCls.concreteFields then
        hydrateNestedGo fl vm selfBinding qs ks lookup_list user kw
      else
        match vm.declaredFields.find? (fun p => p.1 = k) with
        | none => .error (.invalidLookup (notDeclaredMsg k vm.clsName selfBinding))
        | some (_, f) =>
          let fLookupList :=
            (lookup_list.filter (fun l => (k ++ sep).isPrefixOf l)).map
              (fun l => str_remove_prefix l (k ++ sep))
          match hydrateVF fl f k vm.clsName vm.modelCls qs fLookupList user kw with
          | .error e => .error e
          | .ok q => hydrateNestedGo fl vm selfBinding q ks lookup_list user kw
end

/-- `VirtualModel.get_optimized_queryset(qs, lookup_list, **kwargs)`:
the top-level entry point — empty-list expansion, nested hydration
directly against the caller's queryset, then root-level deferral. -/
def getOptimizedQueryset (fuel : Nat) (vm : VModel) (qs : QS)
    (lookup_list : List PStr) (kwargs : Kw) : Except Err QS :=
  -- if lookup_list is empty, consider as full prefetch
  let newLookupList :=
    if lookup_list = [] then
      vm.modelCls.concreteFields ++ vm.declaredFields.map Prod.fst
    else lookup_list
  match hydrateNestedDeclaredFields fuel vm none qs newLookupList vm.user kwargs with
  | .error e => .error e
  | .ok q => .ok (defer_fields q newLookupList vm.deferredFields)

/-! ### `VirtualModelMetaclass._get_declared_fields` -/

/-- Python's substring test `needle in hay`. -/
def strContains (hay needle : PStr) : Bool :=
  match hay with
  | [] => needle.isPrefixOf []
  | _ :: t => needle.isPrefixOf hay || strContains t needle

/-- A class-body attribute: either a `BaseVirtualField` instance or any
other attribute (method, `Meta`, plain value — only its name matters). -/
inductive PyAttr where
  | vfield (f : VField)
  | plainAttr

/-- Insertion into a Python `OrderedDict`: an existing key keeps its
position and gets the new value; a new key is appended. -/
def ordInsert (d : List (PStr × VField)) (kv : PStr × VField) :
    List (PStr × VField) :=
  if (d.find? (fun p => p.1 = kv.1)).isSome then
    d.map (fun p => if p.1 = kv.1 then (p.1, kv.2) else p)
  else d ++ [kv]

/-- `OrderedDict(entries)` built from an association list. -/
def pyOrderedDict (entries : List (PStr × VField)) : List (PStr × VField) :=
  entries.foldl ordInsert []

/-- The class body's own virtual-field attributes, in declaration order
(the `fields` list popped out of `attrs`). -/
def ownVFields (attrs : List (PStr × PyAttr)) : List (PStr × VField) :=
  attrs.filterMap (fun p => match p.2 with
    | .vfield f => some (p.1, f)
    | .plainAttr => none)

/-- The names remaining in `attrs` after the virtual fields are popped
(`known = set(attrs)` in the source). -/
def plainAttrNames (attrs : List (PStr × PyAttr)) : List PStr :=
  attrs.filterMap (fun p => match p.2 with
    | .vfield _ => none
    | .plainAttr => some p.1)

/-- One step of the `base_fields` comprehension: include the entry and
mark its name visited unless the name is already known. -/
def baseFieldsStep (acc : List (PStr × VField) × List PStr)
    (nf : PStr × VField) : List (PStr × VField) × List PStr :=
  if nf.1 ∈ acc.2 then acc else (acc.1 ++ [nf], acc.2 ++ [nf.1])

/-- `VirtualModelMetaclass._get_declared_fields(bases, attrs)`.
`bases` lists, in order, the already-resolved `_declared_fields` of the
base classes that have that attribute.  Raises `InvalidFieldException`
when an own field name contains `__` (the message names the metaclass,
as the source's `cls.__name__` does). -/
def getDeclaredFields (bases : List (List (PStr × VField)))
    (attrs : List (PStr × PyAttr)) : Except Err (List (PStr × VField)) :=
  let fields := ownVFields attrs
  match fields.find? (fun p => strContains p.1 sep) with
  | some p =>
      .error (.invalidField
        (pstr "Field `" ++ p.1 ++
          pstr "` in `VirtualModelMetaclass` shouldn't cointain `__`"))
  | none =>
    let known := plainAttrNames attrs
    let baseFields :=
      (bases.foldl (fun acc base => base.foldl baseFieldsStep acc) ([], known)).1
    .ok (pyOrderedDict (baseFields ++ fields))

/-- The merge described by the specification, written from its words:
ancestors' already-resolved maps concatenated with earliest-base-first
per-name deduplication, own same-named fields replacing the ancestor
value in place, and own new fields appended after in declaration order.
Used to compare the source's behaviour against the specified one. -/
def specDeclaredFieldsMerge (bases : List (List (PStr × VField)))
    (ownFields : List (PStr × VField)) : List (PStr × VField) :=
  let inherited := dedupByKeyFirst (bases.flatten)
  inherited.map (fun p => match ownFields.find? (fun q => q.1 = p.1) with
    | some q => (p.1, q.2)
    | none => p) ++
  ownFields.filter (fun q => (inherited.find? (fun p => p.1 = q.1)).isNone)
where
  dedupByKeyFirst : List (PStr × VField) → List (PStr × VField)
    | [] => []
    | p :: ps => p :: dedupByKeyFirst (ps.filter (fun q => q.1 ≠ p.1))
  termination_by l => l.length
  decreasing_by
    simp only [List.length_cons]
    exact Nat.lt_succ_of_le (ps.length_filter_le _)

/-- Per-key first-occurrence dedup with an initial set of names to skip:
entries whose key was already seen (initially: the class's non-field
attribute names) are dropped; otherwise the first entry per key is kept,
in order. -/
def dedupKeysSeen (seen : List PStr) : List (PStr × VField) → List (PStr × VField)
  | [] => []
  | p :: ps =>
    if p.1 ∈ seen then dedupKeysSeen seen ps
    else p :: dedupKeysSeen (seen ++ [p.1]) ps

/-- The specified merge amended with the source's extra rule: an
ancestor field whose name collides with a non-virtual-field attribute of
the class body is dropped entirely. -/
def amendedDeclaredFieldsMerge (bases : List (List (PStr × VField)))
    (attrs : List (PStr × PyAttr)) : List (PStr × VField) :=
  let ownFields := ownVFields attrs
  let inherited := dedupKeysSeen (plainAttrNames attrs) (bases.flatten)
  inherited.map (fun p => match ownFields.find? (fun q => q.1 = p.1) with
    | some q => (p.1, q.2)
    | none => p) ++
  ownFields.filter (fun q => (inherited.find? (fun p => p.1 = q.1)).isNone)

/-! ## Theorems about `fields.py` -/

theorem qs_ne_defer (q : QS) (fs : List PStr) : q ≠ QS.defer q fs := by
  intro h
  have hlt : sizeOf q < sizeOf (QS.defer q fs) := by
    simp only [QS.defer.sizeOf_spec]
    omega
  rw [← h] at hlt
  exact lt_irrefl _ hlt

theorem mem_one_level_lookup_list (ll : List PStr) (f : PStr) :
    f ∈ one_level_lookup_list ll ↔ ∃ p ∈ ll, one_level_lookup p = f := by
  unfold one_level_lookup_list
  rw [unique_keep_order_mem]
  simp [List.mem_map]

theorem mem_actual_deferred_fields (ll dfs : List PStr) (f : PStr) :
    f ∈ actual_deferred_fields ll dfs ↔
      f ∈ dfs ∧ ¬ ∃ p ∈ ll, one_level_lookup p = f := by
  unfold actual_deferred_fields
  rw [unique_keep_order_mem, List.mem_filter]
  rw [← mem_one_level_lookup_list]
  simp

/-- C3.  For every queryset, every lookup list and every configured
deferred-field set, `_defer_fields` passes a field name to `qs.defer`
if and only if the name is in the deferred-field set and is not the
first `__`-segment of any path in the lookup list — an explicit request,
direct or as a path prefix, always overrides deferral.
(`get_optimized_queryset` and `hydrate_queryset` both defer through
`_defer_fields` with the lookup list current at that node.) -/
theorem claim_C3_defer_policy (qs : QS) (ll dfs : List PStr) (f : PStr) :
    (∃ fs, defer_fields qs ll dfs = QS.defer qs fs ∧ f ∈ fs) ↔
      (f ∈ dfs ∧ ¬ ∃ p ∈ ll, one_level_lookup p = f) := by
  rw [← mem_actual_deferred_fields ll dfs f]
  unfold defer_fields
  constructor
  · rintro ⟨fs, hfs, hmem⟩
    by_cases h : actual_deferred_fields ll dfs = []
    · rw [if_pos h] at hfs
      exact absurd hfs (qs_ne_defer qs fs)
    · rw [if_neg h] at hfs
      obtain ⟨-, rfl⟩ := QS.defer.injEq .. ▸ (by
        injection hfs with h1 h2
        exact ⟨h1, h2⟩ : qs = qs ∧ actual_deferred_fields ll dfs = fs)
      exact hmem
  · intro hmem
    have h : actual_deferred_fields ll dfs ≠ [] := by
      intro hnil
      rw [hnil] at hmem
      exact List.not_mem_nil f hmem
    exact ⟨actual_deferred_fields ll dfs, if_neg h, hmem⟩

/-- C2.  Calling `get_optimized_queryset` with an empty lookup list
behaves exactly as calling it with the list of all concrete fields of
the bound model followed by all declared virtual field names: the empty
list means "fetch everything", never an empty fetch.  Holds at every
recursion-fuel bound, i.e. the two calls run the very same computation. -/
theorem claim_C2_empty_lookup_list_means_everything
    (fuel : Nat) (vm : VModel) (qs : QS) (kwargs : Kw) :
    getOptimizedQueryset fuel vm qs [] kwargs =
      getOptimizedQueryset fuel vm qs
        (vm.modelCls.concreteFields ++ vm.declaredFields.map Prod.fst) kwargs := by
  by_cases h : vm.modelCls.concreteFields ++ vm.declaredFields.map Prod.fst = []
  · simp [getOptimizedQueryset, h]
  · simp [getOptimizedQueryset, h]

theorem isInfix_of_isInfix_middle {l m a b : PStr} (h : l <:+: m) :
    l <:+: a ++ m ++ b :=
  h.trans ⟨a, b, rfl⟩

instance exceptDecidableEq {ε α : Type} [DecidableEq ε] [DecidableEq α] :
    DecidableEq (Except ε α) := fun a b =>
  match a, b with
  | .ok x, .ok y =>
      if h : x = y then isTrue (by rw [h])
      else isFalse (by intro hc; injection hc; contradiction)
  | .error x, .error y =>
      if h : x = y then isTrue (by rw [h])
      else isFalse (by intro hc; injection hc; contradiction)
  | .ok _, .error _ => isFalse (by intro hc; cases hc)
  | .error _, .ok _ => isFalse (by intro hc; cases hc)

theorem mem_infix_pyJoin (s : PStr) (cs : List PStr) (c : PStr) (h : c ∈ cs) :
    c <:+: pyJoin s cs := by
  induction cs with
  | nil => cases h
  | cons x xs ih =>
    cases xs with
    | nil =>
      rcases List.mem_singleton.mp h with rfl
      exact List.infix_rfl
    | cons y ys =>
      rcases List.mem_cons.mp h with rfl | h'
      · exact ⟨[], s ++ pyJoin s (y :: ys), by simp [pyJoin]⟩
      · have := ih h'
        rcases this with ⟨u, v, huv⟩
        exact ⟨x ++ s ++ u, v, by simp only [pyJoin]; rw [← huv]; simp [List.append_assoc]⟩

theorem nestedJoinHydrateGo_ok_iff (mcf ch : List PStr) (fn pcn : PStr)
    (q : QS) (ks : List PStr) :
    (∃ q', nestedJoinHydrateGo mcf ch fn pcn q ks = .ok q') ↔
      ∀ k ∈ ks, k ∈ mcf ∨ one_level_lookup k ∈ ch := by
  induction ks generalizing q with
  | nil => simp [nestedJoinHydrateGo]
  | cons k ks ih =>
    by_cases hk : k ∈ mcf
    · simp only [nestedJoinHydrateGo, if_pos hk]
      rw [ih]
      constructor
      · intro h x hx
        rcases List.mem_cons.mp hx with rfl | hx'
        · exact Or.inl hk
        · exact h x hx'
      · intro h x hx
        exact h x (List.mem_cons_of_mem _ hx)
    · by_cases hch : one_level_lookup k ∈ ch
      · simp only [nestedJoinHydrateGo, if_neg hk, if_pos hch]
        rw [ih]
        constructor
        · intro h x hx
          rcases List.mem_cons.mp hx with rfl | hx'
          · exact Or.inr hch
          · exact h x hx'
        · intro h x hx
          exact h x (List.mem_cons_of_mem _ hx)
      · simp only [nestedJoinHydrateGo, if_neg hk, if_neg hch]
        constructor
        · rintro ⟨q', hq'⟩
          cases hq'
        · intro h
          rcases h k (List.mem_cons_self k ks) with h' | h'
          · exact absurd h' hk
          · exact absurd h' hch

theorem nestedJoinHydrateGo_error (mcf ch : List PStr) (fn pcn : PStr)
    (q : QS) (ks : List PStr) (e : Err)
    (h : nestedJoinHydrateGo mcf ch fn pcn q ks = .error e) :
    ∃ k ∈ ks, k ∉ mcf ∧ one_level_lookup k ∉ ch ∧
      e = .invalidLookup (nestedJoinInvalidLookupMsg (one_level_lookup k) fn pcn ch) := by
  induction ks generalizing q with
  | nil => cases h
  | cons k ks ih =>
    by_cases hk : k ∈ mcf
    · rw [nestedJoinHydrateGo, if_pos hk] at h
      rcases ih _ h with ⟨x, hx, hrest⟩
      exact ⟨x, List.mem_cons_of_mem _ hx, hrest⟩
    · by_cases hch : one_level_lookup k ∈ ch
      · rw [nestedJoinHydrateGo, if_neg hk, if_pos hch] at h
        rcases ih _ h with ⟨x, hx, hrest⟩
        exact ⟨x, List.mem_cons_of_mem _ hx, hrest⟩
      · rw [nestedJoinHydrateGo, if_neg hk, if_neg hch] at h
        injection h with h'
        exact ⟨k, List.mem_cons_self k ks, hk, hch, h'.symm⟩

theorem infix_nestedJoinMsg_kOneLevel (k1 fn pcn : PStr) (ch : List PStr) :
    k1 <:+: nestedJoinInvalidLookupMsg k1 fn pcn ch :=
  ⟨pstr "`",
   pstr "` cannot be used as a lookup for `" ++ fn ++
     pstr " = NestedJoin(...)` used by `" ++ pcn ++ pstr "`. Choices are " ++
     (if pyJoin (pstr ", ") ch = [] then pstr "(none)" else pyJoin (pstr ", ") ch) ++
     pstr ". ",
   by simp [nestedJoinInvalidLookupMsg, List.append_assoc]⟩

theorem infix_nestedJoinMsg_fieldName (k1 fn pcn : PStr) (ch : List PStr) :
    fn <:+: nestedJoinInvalidLookupMsg k1 fn pcn ch :=
  ⟨pstr "`" ++ k1 ++ pstr "` cannot be used as a lookup for `",
   pstr " = NestedJoin(...)` used by `" ++ pcn ++ pstr "`. Choices are " ++
     (if pyJoin (pstr ", ") ch = [] then pstr "(none)" else pyJoin (pstr ", ") ch) ++
     pstr ". ",
   by simp [nestedJoinInvalidLookupMsg, List.append_assoc]⟩

theorem infix_nestedJoinMsg_parentCls (k1 fn pcn : PStr) (ch : List PStr) :
    pcn <:+: nestedJoinInvalidLookupMsg k1 fn pcn ch :=
  ⟨pstr "`" ++ k1 ++ pstr "` cannot be used as a lookup for `" ++ fn ++
     pstr " = NestedJoin(...)` used by `",
   pstr "`. Choices are " ++
     (if pyJoin (pstr ", ") ch = [] then pstr "(none)" else pyJoin (pstr ", ") ch) ++
     pstr ". ",
   by simp [nestedJoinInvalidLookupMsg, List.append_assoc]⟩

theorem infix_nestedJoinMsg_choice (k1 fn pcn : PStr) (ch : List PStr)
    (c : PStr) (hc : c ∈ ch) :
    c <:+: nestedJoinInvalidLookupMsg k1 fn pcn ch := by
  have hjoin : c <:+: pyJoin (pstr ", ") ch := mem_infix_pyJoin _ _ _ hc
  have hifp : c <:+:
      (if pyJoin (pstr ", ") ch = [] then pstr "(none)" else pyJoin (pstr ", ") ch) := by
    by_cases hj : pyJoin (pstr ", ") ch = []
    · rw [hj] at hjoin
      have : c = [] := List.eq_nil_of_infix_nil hjoin
      rw [this, if_pos hj]
      exact List.nil_infix
    · rwa [if_neg hj]
  rcases hifp with ⟨u, v, huv⟩
  refine ⟨pstr "`" ++ k1 ++ pstr "` cannot be used as a lookup for `" ++ fn ++
    pstr " = NestedJoin(...)` used by `" ++ pcn ++ pstr "`. Choices are " ++ u,
    v ++ pstr ". ", ?_⟩
  simp only [nestedJoinInvalidLookupMsg]
  rw [← huv]
  simp [List.append_assoc]

/-- C4.  `NestedJoin.hydrate_queryset` succeeds exactly when every
requested sub-path either is (as a whole string) a concrete field of the
joined model or has its first `__`-segment among the select-related
choices computed for that model — deeper segments are never constrained
(only the first level below the join target is validated).  On failure
the raised `InvalidLookupException`'s message is precisely the source's
f-string, which contains the offending first segment, the `NestedJoin`
field's name, the parent virtual model class name, and every valid
choice. -/
theorem claim_C4_nested_join_validation (m : MRef)
    (fieldName parentClsName : PStr) (qs : QS) (ll : List PStr) :
    ((∃ q, nestedJoinHydrate m fieldName parentClsName qs ll = .ok q) ↔
      ∀ k ∈ ll, k ∈ m.concreteFields ∨
        one_level_lookup k ∈ get_select_related_choices qs m)
    ∧ (∀ e, nestedJoinHydrate m fieldName parentClsName qs ll = .error e →
        ∃ k ∈ ll, k ∉ m.concreteFields ∧
          one_level_lookup k ∉ get_select_related_choices qs m ∧
          e = .invalidLookup (nestedJoinInvalidLookupMsg (one_level_lookup k)
            fieldName parentClsName (get_select_related_choices qs m)) ∧
          one_level_lookup k <:+: nestedJoinInvalidLookupMsg (one_level_lookup k)
            fieldName parentClsName (get_select_related_choices qs m) ∧
          fieldName <:+: nestedJoinInvalidLookupMsg (one_level_lookup k)
            fieldName parentClsName (get_select_related_choices qs m) ∧
          parentClsName <:+: nestedJoinInvalidLookupMsg (one_level_lookup k)
            fieldName parentClsName (get_select_related_choices qs m) ∧
          ∀ c ∈ get_select_related_choices qs m,
            c <:+: nestedJoinInvalidLookupMsg (one_level_lookup k)
              fieldName parentClsName (get_select_related_choices qs m)) := by
  constructor
  · exact nestedJoinHydrateGo_ok_iff m.concreteFields
      (get_select_related_choices qs m) fieldName parentClsName
      (QS.selectRelated qs fieldName) ll
  · intro e he
    rcases nestedJoinHydrateGo_error m.concreteFields
        (get_select_related_choices qs m) fieldName parentClsName
        (QS.selectRelated qs fieldName) ll e he with ⟨k, hkmem, hk1, hk2, hk3⟩
    exact ⟨k, hkmem, hk1, hk2, hk3,
      infix_nestedJoinMsg_kOneLevel _ _ _ _,
      infix_nestedJoinMsg_fieldName _ _ _ _,
      infix_nestedJoinMsg_parentCls _ _ _ _,
      fun c hc => infix_nestedJoinMsg_choice _ _ _ _ c hc⟩

/-- Witness for C4: the spec scenario — requesting the unknown segment
`"bogus"` under a `NestedJoin(User)` field named `created_by` of
`VirtualCourse` fails, and the error message names `bogus`,
`created_by`, `VirtualCourse` and the valid choices. -/
theorem claim_C4_witness :
    ∃ k ∈ [pstr "bogus"],
      k ∉ (MRef.mk (pstr "User") [pstr "id", pstr "email"] [] [] 0).concreteFields ∧
      one_level_lookup k ∉ get_select_related_choices (QS.base 7 [])
        (MRef.mk (pstr "User") [pstr "id", pstr "email"] [] [] 0) ∧
      (Err.invalidLookup (nestedJoinInvalidLookupMsg (one_level_lookup (pstr "bogus"))
          (pstr "created_by") (pstr "VirtualCourse")
          (get_select_related_choices (QS.base 7 [])
            (MRef.mk (pstr "User") [pstr "id", pstr "email"] [] [] 0)))) =
        .invalidLookup (nestedJoinInvalidLookupMsg (one_level_lookup k)
          (pstr "created_by") (pstr "VirtualCourse")
          (get_select_related_choices (QS.base 7 [])
            (MRef.mk (pstr "User") [pstr "id", pstr "email"] [] [] 0))) ∧
      one_level_lookup k <:+: nestedJoinInvalidLookupMsg (one_level_lookup k)
        (pstr "created_by") (pstr "VirtualCourse")
        (get_select_related_choices (QS.base 7 [])
          (MRef.mk (pstr "User") [pstr "id", pstr "email"] [] [] 0)) ∧
      pstr "created_by" <:+: nestedJoinInvalidLookupMsg (one_level_lookup k)
        (pstr "created_by") (pstr "VirtualCourse")
        (get_select_related_choices (QS.base 7 [])
          (MRef.mk (pstr "User") [pstr "id", pstr "email"] [] [] 0)) ∧
      pstr "VirtualCourse" <:+: nestedJoinInvalidLookupMsg (one_level_lookup k)
        (pstr "created_by") (pstr "VirtualCourse")
        (get_select_related_choices (QS.base 7 [])
          (MRef.mk (pstr "User") [pstr "id", pstr "email"] [] [] 0)) ∧
      ∀ c ∈ get_select_related_choices (QS.base 7 [])
          (MRef.mk (pstr "User") [pstr "id", pstr "email"] [] [] 0),
        c <:+: nestedJoinInvalidLookupMsg (one_level_lookup k)
          (pstr "created_by") (pstr "VirtualCourse")
          (get_select_related_choices (QS.base 7 [])
            (MRef.mk (pstr "User") [pstr "id", pstr "email"] [] [] 0)) :=
  (claim_C4_nested_join_validation
      (MRef.mk (pstr "User") [pstr "id", pstr "email"] [] [] 0)
      (pstr "created_by") (pstr "VirtualCourse") (QS.base 7 [])
      [pstr "bogus"]).2 _ (by decide)

/-- C5.  `VirtualModel.__init__` raises `InvalidVirtualModelParams` if
and only if (a) no `manager` is given and `Meta` has no model, or (b) a
`to_attr` is given without a `lookup`; those are the only error exits.
In every successful construction with a `lookup` but no `to_attr`,
`bind()` sets `to_attr` to the bound field name. -/
theorem claim_C5_init_errors_and_bind_default
    (clsName : PStr) (declaredFields : List (PStr × VField))
    (metaModel : Option MRef) (metaDeferredFields : Option (List PStr))
    (user : Option Nat) (manager : Option ManagerRef)
    (lookup toAttr : Option PStr) (kwargs : Kw) :
    ((∃ msg, virtualModelInit clsName declaredFields metaModel metaDeferredFields
        user manager lookup toAttr kwargs = .error (.invalidVirtualModelParams msg)) ↔
      ((manager = none ∧ metaModel = none) ∨ (toAttr ≠ none ∧ lookup = none)))
    ∧ ((∃ vm, virtualModelInit clsName declaredFields metaModel metaDeferredFields
        user manager lookup toAttr kwargs = .ok vm) ↔
      ¬ ((manager = none ∧ metaModel = none) ∨ (toAttr ≠ none ∧ lookup = none)))
    ∧ (∀ vm fieldName,
        virtualModelInit clsName declaredFields metaModel metaDeferredFields
          user manager lookup toAttr kwargs = .ok vm →
        lookup ≠ none → toAttr = none →
        (vm.bind fieldName).toAttr = some fieldName) := by
  cases manager with
  | some mg =>
    cases toAttr with
    | some t =>
      cases lookup with
      | some l =>
        refine ⟨by simp [virtualModelInit], by simp [virtualModelInit], ?_⟩
        intro vm fieldName hvm _ hta
        cases hta
      | none =>
        refine ⟨by simp [virtualModelInit], by simp [virtualModelInit], ?_⟩
        intro vm fieldName hvm hl _
        exact absurd rfl hl
    | none =>
      refine ⟨by simp [virtualModelInit], by simp [virtualModelInit], ?_⟩
      intro vm fieldName hvm hl _
      cases lookup with
      | none => exact absurd rfl hl
      | some l =>
        simp only [virtualModelInit] at hvm
        rw [if_neg (by simp), if_neg (by simp)] at hvm
        injection hvm with h
        subst h
        simp [VModel.bind, VModel.toAttr]
  | none =>
    cases metaModel with
    | none =>
      refine ⟨by simp [virtualModelInit], by simp [virtualModelInit], ?_⟩
      intro vm fieldName hvm
      simp [virtualModelInit] at hvm
    | some mm =>
      cases toAttr with
      | some t =>
        cases lookup with
        | some l =>
          refine ⟨by simp [virtualModelInit], by simp [virtualModelInit], ?_⟩
          intro vm fieldName hvm _ hta
          cases hta
        | none =>
          refine ⟨by simp [virtualModelInit], by simp [virtualModelInit], ?_⟩
          intro vm fieldName hvm hl _
          exact absurd rfl hl
      | none =>
        refine ⟨by simp [virtualModelInit], by simp [virtualModelInit], ?_⟩
        intro vm fieldName hvm hl _
        cases lookup with
        | none => exact absurd rfl hl
        | some l =>
          simp only [virtualModelInit] at hvm
          rw [if_neg (by simp), if_neg (by simp)] at hvm
          injection hvm with h
          subst h
          simp [VModel.bind, VModel.toAttr]

/-- Witness for C5: constructing with `to_attr` but no `lookup` fails
with `InvalidVirtualModelParams`, and a successful construction with a
`lookup` and no `to_attr` gets `to_attr = field_name` at bind time. -/
theorem claim_C5_witness :
    (∃ msg, virtualModelInit (pstr "VirtualCourse") []
        (some (MRef.mk (pstr "Course") [] [] [] 0)) none none none
        none (some (pstr "dest")) [] = .error (.invalidVirtualModelParams msg))
    ∧ ∀ vm, virtualModelInit (pstr "VirtualCourse") []
        (some (MRef.mk (pstr "Course") [] [] [] 0)) none none none
        (some (pstr "lessons_path")) none [] = .ok vm →
        (vm.bind (pstr "lessons")).toAttr = some (pstr "lessons") :=
  ⟨(claim_C5_init_errors_and_bind_default (pstr "VirtualCourse") []
      (some (MRef.mk (pstr "Course") [] [] [] 0)) none none none
      none (some (pstr "dest")) []).1.mpr (Or.inr (by decide)),
   fun vm hvm =>
    (claim_C5_init_errors_and_bind_default (pstr "VirtualCourse") []
      (some (MRef.mk (pstr "Course") [] [] [] 0)) none none none
      (some (pstr "lessons_path")) none []).2.2 vm (pstr "lessons") hvm
      (by decide) rfl⟩

/-! ### Facts about `_get_declared_fields` -/

theorem strContains_iff_infix (hay needle : PStr) :
    strContains hay needle = true ↔ needle <:+: hay := by
  induction hay with
  | nil =>
    simp only [strContains, List.isPrefixOf_iff_prefix]
    constructor
    · intro h
      exact h.isInfix
    · intro h
      exact (List.eq_nil_of_infix_nil h) ▸ List.nil_prefix
  | cons c cs ih =>
    simp only [strContains, Bool.or_eq_true, List.isPrefixOf_iff_prefix, ih]
    rw [List.infix_cons_iff]

theorem find?_key_isNone (l : List (PStr × VField)) (x : PStr) :
    ((l.find? (fun p => p.1 = x)).isNone = true) ↔ x ∉ l.map Prod.fst := by
  rw [Option.isNone_iff_eq_none, List.find?_eq_none]
  simp only [List.mem_map, decide_eq_true_eq]
  constructor
  · rintro h ⟨p, hp, rfl⟩
    exact h p hp rfl
  · intro h p hp hpx
    exact h ⟨p, hp, hpx⟩

theorem map_congr_mem {α β : Type} (f g : α → β) (l : List α)
    (h : ∀ a ∈ l, f a = g a) : l.map f = l.map g := by
  induction l with
  | nil => rfl
  | cons x xs ih =>
    simp only [List.map_cons, h x (List.mem_cons_self x xs)]
    rw [ih (fun a ha => h a (List.mem_cons_of_mem x ha))]

/-- The accumulator-passing description of building an `OrderedDict` on
top of an existing one: when the added entries have pairwise-distinct
keys, existing entries are updated in place and genuinely new entries
are appended in order. -/
theorem foldl_ordInsert_eq (ys : List (PStr × VField))
    (hys : (ys.map Prod.fst).Nodup) (d : List (PStr × VField)) :
    ys.foldl ordInsert d =
      d.map (fun p => match ys.find? (fun q => q.1 = p.1) with
        | some q => (p.1, q.2)
        | none => p) ++
      ys.filter (fun q => decide (q.1 ∉ d.map Prod.fst)) := by
  induction ys generalizing d with
  | nil =>
    simp only [List.foldl_nil, List.find?_nil, List.filter_nil, List.append_nil]
    conv_rhs => rw [show (fun (p : PStr × VField) =>
      (match (none : Option (PStr × VField)) with
        | some q => (p.1, q.2)
        | none => p)) = id from rfl]
    rw [List.map_id]
  | cons y ys ih =>
    have hpair : y.1 ∉ List.map Prod.fst ys ∧ (List.map Prod.fst ys).Nodup := by
      rw [List.map_cons, List.nodup_cons] at hys
      exact hys
    have hykey := hpair.1
    have hysnodup := hpair.2
    simp only [List.foldl_cons]
    by_cases hy : y.1 ∈ d.map Prod.fst
    · have hsome : (d.find? (fun p => p.1 = y.1)).isSome := by
        rcases List.mem_map.mp hy with ⟨p, hp, hpy⟩
        exact List.find?_isSome.mpr ⟨p, hp, by simp [hpy]⟩
      have hins : ordInsert d y = d.map (fun p => if p.1 = y.1 then (p.1, y.2) else p) := by
        unfold ordInsert
        rw [if_pos hsome]
      rw [hins, ih hysnodup]
      congr 1
      · rw [List.map_map]
        apply map_congr_mem
        intro p _
        by_cases hpk : p.1 = y.1
        · simp only [Function.comp_apply, if_pos hpk]
          have hfind : ys.find? (fun q => q.1 = p.1) = none := by
            rw [List.find?_eq_none]
            intro q hq
            simp only [decide_eq_true_eq]
            intro hqp
            exact hykey (hpk ▸ hqp ▸ List.mem_map_of_mem Prod.fst hq)
          have hfind2 : List.find? (fun q => decide (q.1 = p.1)) (y :: ys) = some y := by
            rw [List.find?_cons]
            simp [hpk]
          simp only [hfind, hfind2]
        · simp only [Function.comp_apply, if_neg hpk]
          have : List.find? (fun q => decide (q.1 = p.1)) (y :: ys) =
              List.find? (fun q => decide (q.1 = p.1)) ys := by
            rw [List.find?_cons]
            have : (decide (y.1 = p.1)) = false := by
              simp only [decide_eq_false_iff_not]
              intro h
              exact hpk h.symm
            simp [this]
          rw [this]
      · have hky : (d.map (fun p => if p.1 = y.1 then (p.1, y.2) else p)).map Prod.fst =
            d.map Prod.fst := by
          rw [List.map_map]
          apply map_congr_mem
          intro p _
          by_cases hpk : p.1 = y.1 <;> simp [hpk]
        rw [hky, List.filter_cons]
        have : (decide (y.1 ∉ d.map Prod.fst)) = false := by simp [hy]
        simp [this]
    · have hnonefind : d.find? (fun p => p.1 = y.1) = none := by
        rw [← Option.isNone_iff_eq_none, find?_key_isNone]
        exact hy
      have hins : ordInsert d y = d ++ [y] := by
        unfold ordInsert
        rw [hnonefind]
        rfl
      rw [hins, ih hysnodup]
      rw [List.map_append, List.filter_cons]
      have hyc : (decide (y.1 ∉ d.map Prod.fst)) = true := by simp [hy]
      simp only [hyc, if_true]
      have hmapd : d.map (fun p => match ys.find? (fun q => q.1 = p.1) with
          | some q => (p.1, q.2)
          | none => p) =
          d.map (fun p => match List.find? (fun q => decide (q.1 = p.1)) (y :: ys) with
          | some q => (p.1, q.2)
          | none => p) := by
        apply map_congr_mem
        intro p hp
        have hpk : y.1 ≠ p.1 := by
          intro h
          exact hy (h ▸ List.mem_map_of_mem Prod.fst hp)
        have : List.find? (fun q => decide (q.1 = p.1)) (y :: ys) =
            List.find? (fun q => decide (q.1 = p.1)) ys := by
          rw [List.find?_cons]
          simp [hpk]
        rw [this]
      have hmapy : [y].map (fun p => match ys.find? (fun q => q.1 = p.1) with
          | some q => (p.1, q.2)
          | none => p) = [y] := by
        simp only [List.map_cons, List.map_nil]
        have : ys.find? (fun q => q.1 = y.1) = none := by
          rw [List.find?_eq_none]
          intro q hq
          simp only [decide_eq_true_eq]
          intro hqp
          exact hykey (hqp ▸ List.mem_map_of_mem Prod.fst hq)
        rw [this]
      have hfilter : ys.filter (fun q => decide (q.1 ∉ (d ++ [y]).map Prod.fst)) =
          ys.filter (fun q => decide (q.1 ∉ d.map Prod.fst)) := by
        apply List.filter_congr
        intro q hq
        have hqy : q.1 ≠ y.1 := by
          intro h
          exact hykey (h ▸ List.mem_map_of_mem Prod.fst hq)
        simp only [List.map_append, List.map_cons, List.map_nil, List.mem_append,
          List.mem_singleton, decide_eq_decide]
        tauto
      rw [hmapd.symm, hmapy, hfilter]
      simp [List.append_assoc]

/-- Keys produced by `dedupKeysSeen` are pairwise distinct and disjoint
from the initial seen-set. -/
theorem dedupKeysSeen_nodup_and_unseen (l : List (PStr × VField)) (seen : List PStr) :
    ((dedupKeysSeen seen l).map Prod.fst).Nodup ∧
      ∀ p ∈ dedupKeysSeen seen l, p.1 ∉ seen := by
  induction l generalizing seen with
  | nil => simp [dedupKeysSeen]
  | cons p ps ih =>
    by_cases hp : p.1 ∈ seen
    · simpa [dedupKeysSeen, hp] using ih seen
    · rcases ih (seen ++ [p.1]) with ⟨hnodup, hunseen⟩
      refine ⟨?_, ?_⟩
      · simp only [dedupKeysSeen, if_neg hp, List.map_cons, List.nodup_cons]
        refine ⟨?_, hnodup⟩
        intro hmem
        rcases List.mem_map.mp hmem with ⟨q, hq, hqp⟩
        exact hunseen q hq (by simp [hqp])
      · intro q hq
        rw [dedupKeysSeen, if_neg hp] at hq
        rcases List.mem_cons.mp hq with rfl | hq'
        · exact hp
        · intro hqs
          exact hunseen q hq' (List.mem_append_left _ hqs)

/-- The `base_fields` comprehension with its `visit`-growing `known`
set computes exactly `dedupKeysSeen`. -/
theorem foldl_baseFieldsStep_eq (entries : List (PStr × VField))
    (acc : List (PStr × VField)) (seen : List PStr) :
    entries.foldl baseFieldsStep (acc, seen) =
      (acc ++ dedupKeysSeen seen entries,
        seen ++ (dedupKeysSeen seen entries).map Prod.fst) := by
  induction entries generalizing acc seen with
  | nil => simp [dedupKeysSeen]
  | cons p ps ih =>
    by_cases hp : p.1 ∈ seen
    · simp only [List.foldl_cons, baseFieldsStep, if_pos hp, dedupKeysSeen]
      exact ih acc seen
    · simp only [List.foldl_cons, baseFieldsStep, if_neg hp, dedupKeysSeen]
      rw [ih (acc ++ [p]) (seen ++ [p.1])]
      simp [List.append_assoc]

theorem ownVFields_keys_sublist (attrs : List (PStr × PyAttr)) :
    ((ownVFields attrs).map Prod.fst).Sublist (attrs.map Prod.fst) := by
  induction attrs with
  | nil => simp [ownVFields]
  | cons a as ih =>
    unfold ownVFields at ih ⊢
    match a with
    | (n, .vfield f) =>
        simpa using List.Sublist.cons₂ n ih
    | (n, .plainAttr) =>
        simpa using List.Sublist.cons n ih

/-- C6 (amended).  For every class definition whose own virtual-field
names contain no `__` (otherwise construction fails) and whose attribute
names are distinct, the declared-fields mapping is the merge of the
ancestors' already-resolved maps with the class's own virtual-field
attributes: an own field with the same name as an ancestor field
replaces the ancestor's value in place, inherited fields keep their
original declaration order and precede the subclass's new fields,
with multiple bases the earliest base's entry wins for a shared name —
*except* that an ancestor field whose name collides with a
non-virtual-field attribute of the class body is dropped entirely. -/
theorem claim_C6_declared_fields_merge (bases : List (List (PStr × VField)))
    (attrs : List (PStr × PyAttr))
    (hnodup : (attrs.map Prod.fst).Nodup)
    (hnames : ∀ p ∈ ownVFields attrs, strContains p.1 sep = false) :
    getDeclaredFields bases attrs = .ok (amendedDeclaredFieldsMerge bases attrs) := by
  have hfind : (ownVFields attrs).find? (fun p => strContains p.1 sep) = none := by
    rw [List.find?_eq_none]
    intro p hp
    simp [hnames p hp]
  simp only [getDeclaredFields, hfind]
  have hbases : (bases.foldl (fun acc base => base.foldl baseFieldsStep acc)
      ([], plainAttrNames attrs)) =
      (bases.flatten.foldl baseFieldsStep ([], plainAttrNames attrs)) := by
    exact (List.foldl_flatten baseFieldsStep ([], plainAttrNames attrs) bases).symm
  have hbase1 : (bases.foldl (fun acc base => base.foldl baseFieldsStep acc)
      ([], plainAttrNames attrs)).1 =
      dedupKeysSeen (plainAttrNames attrs) bases.flatten := by
    rw [hbases, foldl_baseFieldsStep_eq]
    simp
  rw [hbase1]
  have hbnodup : ((dedupKeysSeen (plainAttrNames attrs) bases.flatten).map Prod.fst).Nodup :=
    (dedupKeysSeen_nodup_and_unseen _ _).1
  have hfnodup : ((ownVFields attrs).map Prod.fst).Nodup :=
    hnodup.sublist (ownVFields_keys_sublist attrs)
  unfold pyOrderedDict
  rw [List.foldl_append, foldl_ordInsert_eq _ hbnodup [],
    foldl_ordInsert_eq _ hfnodup]
  simp only [List.map_nil, List.nil_append]
  have hfun : (fun (q : PStr × VField) => decide (q.1 ∉ ([] : List PStr))) =
      (fun _ => true) := by
    funext q
    simp
  simp only [hfun, List.filter_true]
  simp only [amendedDeclaredFieldsMerge]
  congr 1
  congr 1
  apply List.filter_congr
  intro q _
  by_cases hq : q.1 ∈ (dedupKeysSeen (plainAttrNames attrs) bases.flatten).map Prod.fst
  · have h1 : ¬ ((dedupKeysSeen (plainAttrNames attrs) bases.flatten).find?
        (fun p => p.1 = q.1)).isNone = true := by
      rw [find?_key_isNone]
      simpa using hq
    simp only [Bool.not_eq_true] at h1
    have h2 : (decide (q.1 ∉ (dedupKeysSeen (plainAttrNames attrs)
        bases.flatten).map Prod.fst)) = false := by
      simp [hq]
    rw [h1, h2]
  · have h1 : ((dedupKeysSeen (plainAttrNames attrs) bases.flatten).find?
        (fun p => p.1 = q.1)).isNone = true := by
      rw [find?_key_isNone]
      exact hq
    have h2 : (decide (q.1 ∉ (dedupKeysSeen (plainAttrNames attrs)
        bases.flatten).map Prod.fst)) = true := by
      simp [hq]
    rw [h1, h2]

/-- Counterexample for C6 as stated: a class body whose attribute `x` is
*not* a virtual field silently drops the ancestor's declared field `x`,
whereas the specified merge (ancestor maps merged with own virtual-field
attributes only) would keep it. -/
theorem claim_C6_counterexample :
    getDeclaredFields [[(pstr "x", VField.noOp)]] [(pstr "x", PyAttr.plainAttr)] =
      .ok [] ∧
    specDeclaredFieldsMerge [[(pstr "x", VField.noOp)]]
      (ownVFields [(pstr "x", PyAttr.plainAttr)]) = [(pstr "x", VField.noOp)] ∧
    getDeclaredFields [[(pstr "x", VField.noOp)]] [(pstr "x", PyAttr.plainAttr)] ≠
      .ok (specDeclaredFieldsMerge [[(pstr "x", VField.noOp)]]
        (ownVFields [(pstr "x", PyAttr.plainAttr)])) := by
  have hspec : specDeclaredFieldsMerge [[(pstr "x", VField.noOp)]]
      (ownVFields [(pstr "x", PyAttr.plainAttr)]) = [(pstr "x", VField.noOp)] := by
    simp [specDeclaredFieldsMerge, specDeclaredFieldsMerge.dedupByKeyFirst,
      ownVFields, List.flatten]
  refine ⟨rfl, hspec, ?_⟩
  rw [hspec]
  intro h
  rw [show getDeclaredFields [[(pstr "x", VField.noOp)]]
      [(pstr "x", PyAttr.plainAttr)] = .ok [] from rfl] at h
  injection h with h'
  cases h'

/-- Witness for C6: a two-base class with an override, a new field, a
shared base name, and a shadowing plain attribute, evaluated concretely
through the amended merge. -/
theorem claim_C6_witness :
    getDeclaredFields
      [[(pstr "a", VField.noOp), (pstr "b", VField.expression 1)],
       [(pstr "a", VField.expression 2), (pstr "c", VField.noOp),
        (pstr "d", VField.annotationField 3)]]
      [(pstr "Meta", PyAttr.plainAttr), (pstr "b", PyAttr.vfield (VField.annotationField 9)),
       (pstr "e", PyAttr.vfield VField.noOp), (pstr "d", PyAttr.plainAttr)] =
      .ok (amendedDeclaredFieldsMerge
        [[(pstr "a", VField.noOp), (pstr "b", VField.expression 1)],
         [(pstr "a", VField.expression 2), (pstr "c", VField.noOp),
          (pstr "d", VField.annotationField 3)]]
        [(pstr "Meta", PyAttr.plainAttr), (pstr "b", PyAttr.vfield (VField.annotationField 9)),
         (pstr "e", PyAttr.vfield VField.noOp), (pstr "d", PyAttr.plainAttr)]) :=
  claim_C6_declared_fields_merge _ _ (by decide) (by decide)

/-- C7.  Path utility laws: `one_level_lookup_list` is idempotent, and
its output is exactly the first-occurrence dedup of the first
`__`-segments of the inputs (so it lists the first segment of each input
exactly once, in first-occurrence order: duplicate-free, and containing
precisely the first segments); `str_remove_prefix` is the identity when
the string does not start with the prefix; `unique_keep_order` of an
empty input is empty. -/
theorem claim_C7_path_utility_laws :
    (∀ l : List PStr,
      one_level_lookup_list (one_level_lookup_list l) = one_level_lookup_list l)
    ∧ (∀ l : List PStr,
        one_level_lookup_list l = firstOccurrenceDedup (l.map one_level_lookup)
        ∧ (one_level_lookup_list l).Nodup
        ∧ ∀ x, x ∈ one_level_lookup_list l ↔ ∃ p ∈ l, one_level_lookup p = x)
    ∧ (∀ s pre : PStr, pre.isPrefixOf s = false → str_remove_prefix s pre = s)
    ∧ unique_keep_order ([] : List PStr) = [] := by
  refine ⟨one_level_lookup_list_idem, ?_, ?_, rfl⟩
  · intro l
    exact ⟨unique_keep_order_eq_firstOccurrenceDedup _,
      unique_keep_order_nodup _,
      fun x => mem_one_level_lookup_list l x⟩
  · intro s pre h
    unfold str_remove_prefix
    rw [if_neg]
    intro hpre
    rw [h] at hpre
    cases hpre

/-- Witness for C7: removing a non-matching prefix is the identity on a
concrete string. -/
theorem claim_C7_witness :
    (pstr "a__b").isPrefixOf (pstr "abc") = false ∧
      str_remove_prefix (pstr "abc") (pstr "a__b") = pstr "abc" :=
  ⟨by decide,
   claim_C7_path_utility_laws.2.2.1 (pstr "abc") (pstr "a__b") (by decide)⟩

/-! ## `query_capture/capture.py` — the scoped interception hook

Django's `connection.execute_wrapper(wrapper)` context manager appends
the wrapper to the connection's `execute_wrappers` stack on entry and
pops it on exit; `native_query_capture` enters it through an `ExitStack`
created in `__init__` and closes that stack in `__exit__`.  The
connection state is embedded as the stack of installed wrapper ids; the
`with` statement's guarantee that `__exit__` runs on every exit path —
normal or exceptional — is part of the host-language semantics the
embedding encodes. -/

/-- The Django connection: its stack of installed execute wrappers. -/
structure ConnState where
  executeWrappers : List Nat
deriving DecidableEq

/-- The callbacks a `native_query_capture`'s `ExitStack` can hold. -/
inductive UnwindAction where
  | exitExecuteWrapper
deriving DecidableEq

/-- `connection.execute_wrapper(w).__enter__`: push the wrapper. -/
def executeWrapperEnter (wid : Nat) (c : ConnState) : ConnState :=
  ⟨c.executeWrappers ++ [wid]⟩

/-- `connection.execute_wrapper(w).__exit__`: pop the top wrapper. -/
def executeWrapperExit (c : ConnState) : ConnState :=
  ⟨c.executeWrappers.dropLast⟩

/-- `native_query_capture` state: its `ExitStack` (built in `__init__`)
and the identity of its `_save_queries` wrapper. -/
structure NativeQueryCapture where
  exitStack : List UnwindAction
  wrapperId : Nat

/-- `native_query_capture.__init__`: fresh, empty `ExitStack`. -/
def nqcInit (wid : Nat) : NativeQueryCapture := ⟨[], wid⟩

/-- `native_query_capture.__enter__`:
`self._exit_stack.enter_context(connection.execute_wrapper(self._save_queries))`
— the wrapper is installed now, its removal deferred onto the stack. -/
def nqcEnter (n : NativeQueryCapture) (c : ConnState) :
    NativeQueryCapture × ConnState :=
  (⟨n.exitStack ++ [.exitExecuteWrapper], n.wrapperId⟩,
   executeWrapperEnter n.wrapperId c)

def runUnwind : UnwindAction → ConnState → ConnState
  | .exitExecuteWrapper, c => executeWrapperExit c

/-- `native_query_capture.__exit__`: `self._exit_stack.close()` — run
the registered exits in reverse registration order. -/
def nqcExit (n : NativeQueryCapture) (c : ConnState) : ConnState :=
  n.exitStack.reverse.foldl (fun c a => runUnwind a c) c

/-- `with native_query_capture(): body` — Python runs `__exit__` on
every exit path, so the exit runs whether `body` returned normally or
raised (an `Except.error` result). -/
def withNativeQueryCapture {ε α : Type} (wid : Nat)
    (body : ConnState → Except ε α × ConnState) (c : ConnState) :
    Except ε α × ConnState :=
  let nc := nqcEnter (nqcInit wid) c
  let rc := body nc.2
  (rc.1, nqcExit nc.1 rc.2)

/-- C8.  For every query-capture scope over a body that leaves the
wrapper stack as it found it (as every well-bracketed nested scope
does), the hook installed by `__enter__` is removed by `__exit__` on
*every* exit — the final wrapper stack equals the initial one and the
scope's wrapper is no longer installed — while the body's outcome,
normal result or propagating exception alike, is passed through
unchanged. -/
theorem claim_C8_hook_released_on_every_exit {ε α : Type} (wid : Nat)
    (body : ConnState → Except ε α × ConnState) (c : ConnState)
    (hbody : ∀ s, ((body s).2).executeWrappers = s.executeWrappers) :
    ((withNativeQueryCapture wid body c).2.executeWrappers = c.executeWrappers)
    ∧ ((withNativeQueryCapture wid body c).1 =
        (body (executeWrapperEnter wid c)).1)
    ∧ (wid ∉ c.executeWrappers →
        wid ∉ (withNativeQueryCapture wid body c).2.executeWrappers) := by
  have hstack : (withNativeQueryCapture wid body c).2.executeWrappers =
      c.executeWrappers := by
    unfold withNativeQueryCapture nqcEnter nqcInit nqcExit
    simp only [List.nil_append, List.reverse_cons, List.reverse_nil,
      List.foldl_cons, List.foldl_nil, runUnwind]
    unfold executeWrapperExit
    rw [hbody]
    unfold executeWrapperEnter
    simp
  refine ⟨hstack, rfl, ?_⟩
  intro hnot
  rw [hstack]
  exact hnot

/-- Witness for C8: a body that raises still releases the hook. -/
theorem claim_C8_witness :
    ((withNativeQueryCapture 5
        (fun s => ((Except.error 0 : Except Nat Nat), s)) ⟨[1, 2]⟩).2.executeWrappers
      = (⟨[1, 2]⟩ : ConnState).executeWrappers)
    ∧ ((withNativeQueryCapture 5
        (fun s => ((Except.error 0 : Except Nat Nat), s)) ⟨[1, 2]⟩).1 =
        (((fun (s : ConnState) => ((Except.error 0 : Except Nat Nat), s))
          (executeWrapperEnter 5 ⟨[1, 2]⟩)).1))
    ∧ (5 ∉ (⟨[1, 2]⟩ : ConnState).executeWrappers →
        5 ∉ (withNativeQueryCapture 5
          (fun s => ((Except.error 0 : Except Nat Nat), s)) ⟨[1, 2]⟩).2.executeWrappers) :=
  claim_C8_hook_released_on_every_exit 5
    (fun s => ((Except.error 0 : Except Nat Nat), s)) ⟨[1, 2]⟩
    (fun _ => rfl)

/-! ## `prefetch/hints.py` — the on/off query-blocking decorators -/

/-- The concrete `OnOffDecorator` subclasses. -/
inductive DecoratorKind where
  | onOff
  | fromTypesOf
  | fromSerializer
  | noDeferredFields
  | definedOnVirtualModel
deriving DecidableEq

/-- An `OnOffDecorator` (or subclass) instance's mutable state. -/
structure OnOffDecoratorState where
  kind : DecoratorKind
  is_active : Bool
deriving DecidableEq

/-- `OnOffDecorator.__init__` (run by every subclass through
`super().__init__()`): created inactive. -/
def OnOffDecoratorState.init (k : DecoratorKind) : OnOffDecoratorState :=
  ⟨k, false⟩

/-- `OnOffDecorator.activate`. -/
def OnOffDecoratorState.activate (d : OnOffDecoratorState) : OnOffDecoratorState :=
  ⟨d.kind, true⟩

/-- Every operation the library performs on a decorator instance after
construction: `activate` (called by
`LookupFinder._activate_prefetch_hints_decorator`), `__call__` (wrapping
a function), and an invocation of the wrapped callable (which only reads
`is_active`).  No source operation writes `is_active = False`. -/
inductive DecoratorOp where
  | activate
  | wrapFunction
  | invokeWrapped
deriving DecidableEq

def decoratorStep (d : OnOffDecoratorState) : DecoratorOp → OnOffDecoratorState
  | .activate => d.activate
  | .wrapFunction => d
  | .invokeWrapped => d

def applyDecoratorOps (d : OnOffDecoratorState) (ops : List DecoratorOp) :
    OnOffDecoratorState :=
  ops.foldl decoratorStep d

/-- The `max_query_count` configuration `_block_queries` builds. -/
structure GuardParams where
  maxQueries : Nat
  onlyCountSelect : Bool
  onlyLog : Bool
deriving DecidableEq

inductive CallMode where
  | guarded (p : GuardParams)
  | plain
deriving DecidableEq

/-- How `_wrap_func_blocking_queries`'s wrapper runs one invocation of
the wrapped callable: inside `_block_queries` (a `max_query_count` scope
with `max_queries=0`, `only_count_select=True`,
`only_log=not settings.DEBUG`) when `is_active_fn()` holds, plainly
otherwise. -/
def wrapperCallMode (d : OnOffDecoratorState) (settingsDebug : Bool) : CallMode :=
  if d.is_active then .guarded ⟨0, true, !settingsDebug⟩ else .plain

theorem applyDecoratorOps_active (d : OnOffDecoratorState)
    (ops : List DecoratorOp) (h : d.is_active = true) :
    (applyDecoratorOps d ops).is_active = true := by
  induction ops generalizing d with
  | nil => exact h
  | cons op ops ih =>
    cases op with
    | activate => exact ih d.activate rfl
    | wrapFunction => exact ih d h
    | invokeWrapped => exact ih d h

/-- C9.  Every decorator instance (of `OnOffDecorator` or any subclass)
is created inactive and its wrapper then runs calls plainly; activation
is irreversible — after `activate()`, no sequence of library operations
ever makes `is_active` false again, so every subsequent invocation of
the wrapped callable runs inside the zero-tolerance guard scope
(`max_queries=0`, select-only, raise in DEBUG / log otherwise). -/
theorem claim_C9_activation_irreversible :
    (∀ k, (OnOffDecoratorState.init k).is_active = false)
    ∧ (∀ k dbg, wrapperCallMode (OnOffDecoratorState.init k) dbg = .plain)
    ∧ (∀ (d : OnOffDecoratorState) (ops : List DecoratorOp),
        (applyDecoratorOps d.activate ops).is_active = true)
    ∧ (∀ (d : OnOffDecoratorState) (ops : List DecoratorOp) (dbg : Bool),
        wrapperCallMode (applyDecoratorOps d.activate ops) dbg =
          .guarded ⟨0, true, !dbg⟩) := by
  refine ⟨fun k => rfl, fun k dbg => rfl, ?_, ?_⟩
  · intro d ops
    exact applyDecoratorOps_active d.activate ops rfl
  · intro d ops dbg
    unfold wrapperCallMode
    rw [if_pos (applyDecoratorOps_active d.activate ops rfl)]

/-! ## `prefetch/serializer_optimization.py` — the Lookup Resolver

The host serialization layer (DRF) is an external collaborator, embedded
at its interface: a serializer is a class name plus an ordered tree of
output fields, each with a `source`, a `field_name`, a `write_only`
flag, and a kind (the `isinstance` classifications the resolver's
handlers test).  A `many=True` serializer is a list-serializer wrapper
around a `child`.  Annotated-type-hint metadata on functions is embedded
as the data `typing_extensions.get_type_hints` returns: a parameter-name
to type-hint map, a hint being `Annotated` with metadata marks or not. -/

/-- One metadata entry inside an `Annotated[...]` hint. -/
inductive VirtualMark where
  | virtualMark (fields : List PStr)
  | otherMeta
deriving DecidableEq

/-- A parameter type hint as seen through `typing_extensions`. -/
inductive TypeHint where
  | annotated (metadata : List VirtualMark)
  | plain
deriving DecidableEq

mutual
/-- A serializer instance: a plain serializer with its class name and
bound fields, or a `many=True` list serializer with its `child`. -/
inductive Ser where
  | obj (clsName : PStr) (fields : List (PStr × SField))
  | many (child : Ser)

/-- A bound serializer output field: `source`, `field_name`,
`write_only`, and its kind. -/
inductive SField where
  | mk (source : PStr) (fieldName : PStr) (writeOnly : Bool) (kind : SFieldKind)

/-- The `isinstance` classification of a serializer field, as the
resolver's handlers distinguish them. -/
inductive SFieldKind where
  | plain
  | serializerMethodField (methodName : PStr) (method : PFunc)
  | primaryKeyRelated
  | manyRelatedPK (childSource : PStr)
  | manyRelatedOther
  | hyperlinked
  | nestedSerializer (s : Ser)

/-- A Python function as the hint machinery sees it: its qualified name,
the `_decorator_instance` attribute left by an `OnOffDecorator` (if
any), and its parameter type hints. -/
inductive PFunc where
  | mk (qualName : PStr) (decorator : Option DecoratorHint)
      (typeHints : List (PStr × TypeHint))

/-- A `_decorator_instance` as the resolver dispatches on it. -/
inductive DecoratorHint where
  | fromTypesOf (typedFuncQualName : PStr)
      (typedFuncHints : List (PStr × TypeHint)) (objParamName : PStr)
  /-- `from_serializer`: `serializer_cls(**(serializer_kwargs or {}))`,
  i.e. the serializer instance that instantiation yields. -/
  | fromSerializer (serInstance : Ser)
  | definedOnVirtualModel
  | noDeferredFields
  /-- A bare `OnOffDecorator` (hits the `Unknown decorator` branch). -/
  | plainOnOff
end

instance : Inhabited SField := ⟨SField.mk [] [] false .plain⟩

def SField.source : SField → PStr
  | .mk s _ _ _ => s

def SField.fieldName : SField → PStr
  | .mk _ n _ _ => n

def SField.writeOnly : SField → Bool
  | .mk _ _ w _ => w

def SField.kind : SField → SFieldKind
  | .mk _ _ _ k => k

/-- `utils.get_field_name(field)`. -/
def getFieldName (f : SField) : PStr :=
  match f.kind with
  | .serializerMethodField _ _ => f.fieldName
  | .hyperlinked => f.fieldName
  | _ => f.source

/-- `utils.get_friendly_field_name(field)`. -/
def getFriendlyFieldName (f : SField) : PStr :=
  match f.kind with
  | .serializerMethodField mn _ => mn
  | .hyperlinked => f.fieldName
  | _ => f.source

/-- `getattr(serializer_instance, "many", False)`. -/
def Ser.pyMany : Ser → Bool
  | .many _ => true
  | .obj _ _ => false

/-- `serializer_instance.child` (meaningful on a list serializer). -/
def Ser.child : Ser → Ser
  | .many c => c
  | s => s

/-- The Python class attribute table for a model class: its properties
(name to `fget` function, `utils.get_properties`) and its callable
attributes (name to function, `utils.get_methods`). -/
structure ModelAttrs where
  properties : List (PStr × PFunc)
  methods : List (PStr × PFunc)

/-- The ambient class-attribute environment, keyed by model-class name. -/
abbrev ModelEnv := List (PStr × ModelAttrs)

def envFor (env : ModelEnv) (m : MRef) : ModelAttrs :=
  match env.find? (fun p => p.1 = m.name) with
  | some p => p.2
  | none => ⟨[], []⟩

/-- `virtual_model.model_cls` (`AttributeError` on the variants without
one). -/
def VField.modelClsOpt : VField → Option MRef
  | .nestedJoin m => some m
  | .vmodel vm => some vm.modelCls
  | _ => none

/-- Modelled from the spec: the resolver reads
`virtual_model.declared_fields`, an instance attribute whose definition
is not in the copy of `fields.py` under `src/` (only its uses and tests
are).  Per the spec's data model — "a mapping from field name to
declared Virtual Field (collected from class-level declarations ...)" —
it is the class's resolved `_declared_fields` mapping; absent on
non-`VirtualModel` variants (`AttributeError`). -/
def VField.declaredFieldsOpt : VField → Option (List (PStr × VField))
  | .vmodel vm => some vm.declaredFields
  | _ => none

/-- `__class__.__name__` of a virtual field (a `VirtualModel` subclass
reports its subclass name). -/
def VField.pyClsName : VField → PStr
  | .noOp => pstr "NoOp"
  | .expression _ => pstr "Expression"
  | .annotationField _ => pstr "Annotation"
  | .nestedJoin _ => pstr "NestedJoin"
  | .vmodel vm => vm.clsName

/-- Python `field_name.replace(".", "__")`. -/
def replaceDotsWithSep (s : PStr) : PStr :=
  s.foldr (fun c acc => if c = '.' then '_' :: '_' :: acc else c :: acc) []

/-- `_get_param_type_hints_with_annotated`: the parameter hints with the
`return` annotationField popped. -/
def paramTypeHints (hints : List (PStr × TypeHint)) : List (PStr × TypeHint) :=
  hints.filter (fun p => p.1 ≠ pstr "return")

/-- Number of `hints.Virtual` marks inside an `Annotated` hint's
metadata. -/
def countVirtualMarks (metadata : List VirtualMark) : Nat :=
  (metadata.filter (fun m => match m with
    | .virtualMark _ => true
    | .otherMeta => false)).length

/-- `_validate_type_hint`: the hint must be `Annotated` with exactly one
`hints.Virtual` inside. -/
def validateTypeHint (th : TypeHint) : Bool :=
  match th with
  | .plain => false
  | .annotated metadata => countVirtualMarks metadata = 1

/-- `_extract_lookups_from_type_hint_obj`: the fields of the first
`hints.Virtual` mark (guaranteed present after validation). -/
def extractLookupsFromTypeHintObj (th : TypeHint) : List PStr :=
  match th with
  | .annotated metadata =>
    match metadata.find? (fun m => match m with
      | .virtualMark _ => true
      | .otherMeta => false) with
    | some (.virtualMark fields) => fields
    | _ => []
  | .plain => []

/-- `_extract_type_hint_from_function`. -/
def extractTypeHintFromFunction (friendlyName serializerName : PStr)
    (fn : PFunc) : Except Err TypeHint :=
  match fn with
  | .mk _ _ hints =>
    let typeHintsDict := paramTypeHints hints
    if typeHintsDict.length = 0 then
      .error (.missingHintsDeclaration friendlyName serializerName .noAnnotatedParam)
    else if typeHintsDict.length > 1 then
      .error (.missingHintsDeclaration friendlyName serializerName .multipleParams)
    else
      match typeHintsDict with
      | [(_, th)] =>
        if validateTypeHint th then .ok th
        else .error (.missingHintsDeclaration friendlyName serializerName .wrongShape)
      | _ => .error (.missingHintsDeclaration friendlyName serializerName .wrongShape)

/-- `_extract_type_hint_from_types_of_other_function`. -/
def extractTypeHintFromTypesOfOtherFunction (friendlyName serializerName : PStr)
    (typedFuncHints : List (PStr × TypeHint)) (objParamName : PStr) :
    Except Err TypeHint :=
  let typeHintsDict := paramTypeHints typedFuncHints
  if typeHintsDict.length = 0 then
    .error (.missingHintsDeclaration friendlyName serializerName .paramNotFound)
  else
    match typeHintsDict.find? (fun p => p.1 = objParamName) with
    | none => .error (.missingHintsDeclaration friendlyName serializerName .paramNotFound)
    | some (_, th) =>
      if validateTypeHint th then .ok th
      else .error (.missingHintsDeclaration friendlyName serializerName .wrongShape)

/-- The per-call context of `LookupFinder.recursively_find_lookup_list`:
the ambient class-attribute environment, the finder's `block_queries`
flag and `virtual_model`, the `parent_virtual_model` argument, the
serializer's class name (`field.parent.__class__.__name__` for its
fields) and the bound model class with its cached concrete /
property / method tables. -/
structure RCtx where
  env : ModelEnv
  blockQueries : Bool
  serializerClsName : PStr
  virtualModel : VField
  parentVirtualModel : Option VField
  modelCls : MRef

/-- The per-segment loop of `LookupFinder._validate_lookup_list`. -/
def validateLookupListGo (ctx : RCtx) (field : SField) :
    List PStr → Except Err Unit
  | [] => .ok ()
  | k :: ks =>
    if k ∈ ctx.modelCls.concreteFields then validateLookupListGo ctx field ks
    else
      match ctx.virtualModel.declaredFieldsOpt with
      | none => .error (.attributeError (pstr "declared_fields"))
      | some df =>
        if (df.find? (fun p => p.1 = k)).isSome then
          validateLookupListGo ctx field ks
        else if k ∈ (envFor ctx.env ctx.modelCls).properties.map Prod.fst then
          .error (.propertyFieldNotDefined k (getFriendlyFieldName field)
            ctx.serializerClsName ctx.virtualModel.pyClsName)
        else
          .error (.nonConcreteFieldNotDefined k (getFriendlyFieldName field)
            ctx.serializerClsName ctx.virtualModel.pyClsName)

/-- `LookupFinder._validate_lookup_list`: every one-level segment of an
emitted lookup list must be concrete or declared on the virtual model. -/
def validateLookupList (ctx : RCtx) (field : SField) (lookupList : List PStr) :
    Except Err Unit :=
  validateLookupListGo ctx field (one_level_lookup_list lookupList)

/-- The type of the recursive re-entry the handler machinery uses: it
constructs a fresh `LookupFinder` (normalising `many=True`) and calls
`recursively_find_lookup_list` on it.  The recursion is
dependency-injected so that each pass is a plain (kernel-evaluable)
function; `recursivelyFindLookupList` below ties the knot over a fuel
bound. -/
abbrev RecurseFn := Ser → VField → Option VField → Except Err (List PStr)

/-- `LookupFinder.__init__`'s normalisation of `many=True`. -/
def stripManyInit (s : Ser) : Ser :=
  if s.pyMany then s.child else s

/-- `_extract_lookups_from_nested_serializer`: refuse a `NestedJoin`,
require the field name among the declared fields, recurse a fresh
`LookupFinder` (whose `__init__` strips a `many=True` wrapper) into the
nested serializer against the matching child virtual model, and prefix
the results with `fieldname__`. -/
def extractLookupsFromNestedSerializer (recurse : RecurseFn) (ctx : RCtx)
    (field : SField) (serInst : Ser) : Except Err (List PStr) :=
  let fieldName := getFieldName field
  match ctx.virtualModel with
  | .nestedJoin _ =>
    .error (.nestedJoinForNestedSerializer fieldName
      ((ctx.parentVirtualModel.map VField.pyClsName).getD (pstr "NoneType"))
      ctx.serializerClsName)
  | vm =>
    match vm.declaredFieldsOpt with
    | none => .error (.attributeError (pstr "declared_fields"))
    | some df =>
      match df.find? (fun p => p.1 = fieldName) with
      | none =>
        .error (.missingVMFieldNested fieldName vm.pyClsName ctx.serializerClsName)
      | some (_, vmField) =>
        match recurse (stripManyInit serInst) vmField (some ctx.virtualModel) with
        | .error e => .error e
        | .ok ll => .ok (fieldName :: ll.map (fun l => fieldName ++ sep ++ l))

/-- `_extract_lookups_from_function_type_hint`, dispatching on the
function's `_decorator_instance`. -/
def extractLookupsFromFunctionTypeHint (recurse : RecurseFn) (ctx : RCtx)
    (field : SField) (fn : PFunc) : Except Err (List PStr) :=
  match fn with
  | .mk _ dec _ =>
    match dec with
    | none =>
      match extractTypeHintFromFunction (getFriendlyFieldName field)
          ctx.serializerClsName fn with
      | .error e => .error e
      | .ok th => .ok (extractLookupsFromTypeHintObj th)
    | some (.fromTypesOf _ typedHints objParam) =>
      match extractTypeHintFromTypesOfOtherFunction (getFriendlyFieldName field)
          ctx.serializerClsName typedHints objParam with
      | .error e => .error e
      | .ok th => .ok (extractLookupsFromTypeHintObj th)
    | some (.fromSerializer serInst) =>
      extractLookupsFromNestedSerializer recurse ctx field serInst
    | some .definedOnVirtualModel => .ok [field.fieldName]
    | some .noDeferredFields => .ok []
    | some .plainOnOff => .error .unknownDecorator

/-- The handler chain of `recursively_find_lookup_list`, in its source
order: concrete field, computed property, model method, serializer
method, relational, dotted source, URL, nested serializer. -/
def runHandler (recurse : RecurseFn) (ctx : RCtx) (field : SField) (i : Nat) :
    Except Err (List PStr) :=
  match i with
  | 0 =>
    -- _maybe_handle_concrete_field
    if field.source ∈ ctx.modelCls.concreteFields then .ok [field.source]
    else .error .cantHandle
  | 1 =>
    -- _maybe_handle_property_field: getattr(model_cls, source).fget
    match (envFor ctx.env ctx.modelCls).properties.find?
        (fun p => p.1 = field.source) with
    | none => .error .cantHandle
    | some (_, fn) => extractLookupsFromFunctionTypeHint recurse ctx field fn
  | 2 =>
    -- _maybe_handle_model_method_field: getattr(model_cls, source)
    match (envFor ctx.env ctx.modelCls).methods.find?
        (fun p => p.1 = field.source) with
    | none => .error .cantHandle
    | some (_, fn) => extractLookupsFromFunctionTypeHint recurse ctx field fn
  | 3 =>
    -- _maybe_handle_method_field: getattr(field.parent, field.method_name)
    match field.kind with
    | .serializerMethodField _ m =>
      extractLookupsFromFunctionTypeHint recurse ctx field m
    | _ => .error .cantHandle
  | 4 =>
    -- _maybe_handle_relational_field
    match field.kind with
    | .primaryKeyRelated => .ok [field.source]
    | .manyRelatedPK childSource => .ok [childSource]
    | _ => .error .cantHandle
  | 5 =>
    -- _maybe_handle_field_with_nested_source
    let fieldName := getFieldName field
    if '.' ∈ fieldName then .ok [replaceDotsWithSep fieldName]
    else .error .cantHandle
  | 6 =>
    -- _maybe_handle_url_field
    match field.kind with
    | .hyperlinked =>
      .error (.urlFieldUnsupported (getFriendlyFieldName field) ctx.serializerClsName)
    | _ => .error .cantHandle
  | 7 =>
    -- _maybe_handle_nested_serializer_field
    match field.kind with
    | .nestedSerializer s => extractLookupsFromNestedSerializer recurse ctx field s
    | _ => .error .cantHandle
  | _ => .error .cantHandle

/-- The `for handler_fn in get_type_hints_handler_fns` loop: a
`CantHandleException` moves to the next handler, any other exception
propagates, and a successful handler first *assigns* the result and is
then validated — with no `break`, so a later successful handler
overwrites an earlier result.  State `none` is Python's `unassigned`
sentinel. -/
def handlerLoop (recurse : RecurseFn) (ctx : RCtx) (field : SField) :
    List Nat → Option (List PStr) → Except Err (Option (List PStr))
  | [], st => .ok st
  | i :: is, st =>
    match runHandler recurse ctx field i with
    | .error .cantHandle => handlerLoop recurse ctx field is st
    | .error e => .error e
    | .ok v =>
      match validateLookupList ctx field v with
      | .error .cantHandle => handlerLoop recurse ctx field is (some v)
      | .error e => .error e
      | .ok _ => handlerLoop recurse ctx field is (some v)

/-- One field of the resolver loop: run the handler chain, then the
unassigned fallback (`field_name` must be among the virtual model's
declared fields). -/
def processField (recurse : RecurseFn) (ctx : RCtx) (field : SField) :
    Except Err (List PStr) :=
  match handlerLoop recurse ctx field [0, 1, 2, 3, 4, 5, 6, 7] none with
  | .error e => .error e
  | .ok (some v) => .ok v
  | .ok none =>
    let fieldName := getFieldName field
    match ctx.virtualModel.declaredFieldsOpt with
    | none => .error (.attributeError (pstr "declared_fields"))
    | some df =>
      if (df.find? (fun p => p.1 = fieldName)).isSome then .ok [fieldName]
      else
        .error (.fieldMustBeDefined fieldName ctx.serializerClsName
          ctx.virtualModel.pyClsName (ctx.parentVirtualModel.map VField.pyClsName))

/-- The `for k, field in readable_serializer_fields.items()` loop:
process each field and concatenate the per-field lookup lists. -/
def visitReadableFields (recurse : RecurseFn) (ctx : RCtx) :
    List (PStr × SField) → Except Err (List PStr)
  | [] => .ok []
  | (_, f) :: rest =>
    match processField recurse ctx f with
    | .error e => .error e
    | .ok contribution =>
      match visitReadableFields recurse ctx rest with
      | .error e => .error e
      | .ok ll => .ok (contribution ++ ll)

/-- One pass of `LookupFinder.recursively_find_lookup_list`: the `NoOp`
short-circuit, the readable-field walk with the handler chain, and the
final order-preserving dedup. -/
def resolverPass (recurse : RecurseFn) (env : ModelEnv) (bq : Bool)
    (serializerInstance : Ser) (virtualModel : VField)
    (parentVirtualModel : Option VField) : Except Err (List PStr) :=
  match virtualModel with
  | .noOp => .ok []
  | _ =>
    match serializerInstance with
    | .many _ => .error (.attributeError (pstr "fields"))
    | .obj clsName fields =>
      match virtualModel.modelClsOpt with
      | none => .error (.attributeError (pstr "model_cls"))
      | some mcls =>
        let readable := fields.filter (fun p => !p.2.writeOnly)
        match visitReadableFields recurse
            ⟨env, bq, clsName, virtualModel, parentVirtualModel, mcls⟩
            readable with
        | .error e => .error e
        | .ok ll => .ok (unique_keep_order ll)

/-- `LookupFinder.recursively_find_lookup_list(parent_virtual_model)`,
with the recursive re-entry (a fresh `LookupFinder` over the same
environment and `block_queries` flag) tied over a fuel bound mirroring
Python's recursion limit; fuel only runs out where the source itself
would not return (cyclic hint graphs). -/
def recursivelyFindLookupList (fuel : Nat) (env : ModelEnv) (bq : Bool)
    (serializerInstance : Ser) (virtualModel : VField)
    (parentVirtualModel : Option VField) : Except Err (List PStr) :=
  match fuel with
  | 0 => .error .recursionError
  | Nat.succ fl =>
    resolverPass (fun si vm pvm => recursivelyFindLookupList fl env bq si vm pvm)
      env bq serializerInstance virtualModel parentVirtualModel

/-- `LookupFinder` after `__init__`: a `many=True` serializer is
replaced by its `child`. -/
structure LookupFinder where
  serializer_instance : Ser
  virtual_model : VField
  block_queries : Bool

/-- `LookupFinder.__init__(serializer_instance, virtual_model,
block_queries)`. -/
def LookupFinder.make (serializerInstance : Ser) (virtualModel : VField)
    (blockQueries : Bool) : LookupFinder :=
  if serializerInstance.pyMany then
    ⟨serializerInstance.child, virtualModel, blockQueries⟩
  else
    ⟨serializerInstance, virtualModel, blockQueries⟩

/-- `lf.recursively_find_lookup_list(parent_virtual_model)`. -/
def LookupFinder.recursivelyFind (fuel : Nat) (env : ModelEnv)
    (lf : LookupFinder) (parentVirtualModel : Option VField) :
    Except Err (List PStr) :=
  recursivelyFindLookupList fuel env lf.block_queries lf.serializer_instance
    lf.virtual_model parentVirtualModel

/-! ## Theorems about the Lookup Resolver -/

/-- The selection rule the specification describes for a field: the
*first* handler that matches (returns a result) determines the emitted
lookup paths.  Stated from the spec's words, for comparison with the
source's loop. -/
def firstMatchingHandlerResult (recurse : RecurseFn) (ctx : RCtx)
    (field : SField) : List Nat → Option (List PStr)
  | [] => none
  | i :: is =>
    match runHandler recurse ctx field i with
    | .ok v => some v
    | .error _ => firstMatchingHandlerResult recurse ctx field is

/-- A model with a concrete column `x` that is *also* declared as a
nested virtual model, rendered by a nested serializer with
`source="x"`: both the concrete-field handler and the nested-serializer
handler match. -/
def mXModel : MRef := ⟨pstr "XModel", [pstr "id"], [], [], 1⟩

def childVMX : VModel := .mk (pstr "VirtualX") mXModel 1 [] none none [] [] none

def mCourse : MRef := ⟨pstr "Course", [pstr "x", pstr "cid"], [], [], 0⟩

def vmCourse : VField :=
  .vmodel (.mk (pstr "VirtualCourse") mCourse 0
    [(pstr "x", .vmodel childVMX)] none none [] [] none)

def nestedSerX : Ser :=
  .obj (pstr "XSerializer") [(pstr "id", .mk (pstr "id") (pstr "id") false .plain)]

def fieldX : SField :=
  .mk (pstr "x") (pstr "x") false (.nestedSerializer nestedSerX)

def ctxCourse : RCtx :=
  ⟨[], false, pstr "CourseSerializer", vmCourse, none, mCourse⟩

/-- The recursive re-entry of the counterexample's resolver run. -/
def recurseCourse : RecurseFn :=
  fun si vm pvm => recursivelyFindLookupList 10 [] false si vm pvm

/-- Counterexample for C1 as stated: on `fieldX` the first matching
handler is the concrete-field handler with result `["x"]`, but the
emitted lookup paths are the nested-serializer handler's
`["x", "x__id"]` — the loop has no `break`, so a later matching
handler's result replaces the earlier one. -/
theorem claim_C1_counterexample :
    processField recurseCourse ctxCourse fieldX =
      .ok [pstr "x", pstr "x__id"] ∧
    firstMatchingHandlerResult recurseCourse ctxCourse fieldX
      [0, 1, 2, 3, 4, 5, 6, 7] = some [pstr "x"] ∧
    ([pstr "x", pstr "x__id"] : List PStr) ≠ [pstr "x"] :=
  ⟨by decide, by decide, by decide⟩

theorem handlerLoop_all_cantHandle (recurse : RecurseFn) (ctx : RCtx)
    (field : SField) (idxs : List Nat) (st : Option (List PStr))
    (h : ∀ j ∈ idxs, runHandler recurse ctx field j = .error .cantHandle) :
    handlerLoop recurse ctx field idxs st = .ok st := by
  induction idxs with
  | nil => rfl
  | cons i is ih =>
    rw [handlerLoop, h i (List.mem_cons_self i is)]
    exact ih (fun j hj => h j (List.mem_cons_of_mem i hj))

theorem handlerLoop_last_match (recurse : RecurseFn) (ctx : RCtx)
    (field : SField) (pre post : List Nat) (i : Nat) (v : List PStr)
    (st : Option (List PStr))
    (hok : runHandler recurse ctx field i = .ok v)
    (hval : validateLookupList ctx field v = .ok ())
    (hpost : ∀ j ∈ post, runHandler recurse ctx field j = .error .cantHandle)
    (hpre : ∀ j ∈ pre, runHandler recurse ctx field j = .error .cantHandle ∨
        ∃ w, runHandler recurse ctx field j = .ok w ∧
          validateLookupList ctx field w = .ok ()) :
    handlerLoop recurse ctx field (pre ++ i :: post) st = .ok (some v) := by
  induction pre generalizing st with
  | nil =>
    rw [List.nil_append, handlerLoop]
    simp only [hok, hval]
    exact handlerLoop_all_cantHandle recurse ctx field post (some v) hpost
  | cons j js ih =>
    have hpre' : ∀ x ∈ js, runHandler recurse ctx field x = .error .cantHandle ∨
        ∃ w, runHandler recurse ctx field x = .ok w ∧
          validateLookupList ctx field w = .ok () :=
      fun x hx => hpre x (List.mem_cons_of_mem j hx)
    rcases hpre j (List.mem_cons_self j js) with hch | ⟨w, hw, hwval⟩
    · rw [List.cons_append, handlerLoop]
      simp only [hch]
      exact ih st hpre'
    · rw [List.cons_append, handlerLoop]
      simp only [hw, hwval]
      exact ih (some w) hpre'

/-- C1 (amended).  For every serializer field, the handlers are
attempted in the fixed priority order, a non-matching handler
(`CantHandleException`) is skipped, and each matching handler's
validated result *overwrites* the previously assigned one — there is no
`break` — so the *last* matching handler determines the emitted lookup
paths for the field (which coincides with the first when at most one
handler matches). -/
theorem claim_C1_last_matching_handler_wins (recurse : RecurseFn)
    (ctx : RCtx) (field : SField) (i : Nat) (v : List PStr)
    (hi : i < 8)
    (hok : runHandler recurse ctx field i = .ok v)
    (hval : validateLookupList ctx field v = .ok ())
    (hafter : ∀ j, i < j → j < 8 →
      runHandler recurse ctx field j = .error .cantHandle)
    (hbefore : ∀ j, j < i →
      runHandler recurse ctx field j = .error .cantHandle ∨
        ∃ w, runHandler recurse ctx field j = .ok w ∧
          validateLookupList ctx field w = .ok ()) :
    processField recurse ctx field = .ok v := by
  have hloop : handlerLoop recurse ctx field [0, 1, 2, 3, 4, 5, 6, 7] none =
      .ok (some v) := by
    interval_cases i
    · exact handlerLoop_last_match recurse ctx field [] [1, 2, 3, 4, 5, 6, 7] 0 v
        none hok hval
        (by intro j hj; fin_cases hj <;> exact hafter _ (by omega) (by omega))
        (by intro j hj; simp at hj)
    · exact handlerLoop_last_match recurse ctx field [0] [2, 3, 4, 5, 6, 7] 1 v
        none hok hval
        (by intro j hj; fin_cases hj <;> exact hafter _ (by omega) (by omega))
        (by intro j hj; fin_cases hj <;> exact hbefore _ (by omega))
    · exact handlerLoop_last_match recurse ctx field [0, 1] [3, 4, 5, 6, 7] 2 v
        none hok hval
        (by intro j hj; fin_cases hj <;> exact hafter _ (by omega) (by omega))
        (by intro j hj; fin_cases hj <;> exact hbefore _ (by omega))
    · exact handlerLoop_last_match recurse ctx field [0, 1, 2] [4, 5, 6, 7] 3 v
        none hok hval
        (by intro j hj; fin_cases hj <;> exact hafter _ (by omega) (by omega))
        (by intro j hj; fin_cases hj <;> exact hbefore _ (by omega))
    · exact handlerLoop_last_match recurse ctx field [0, 1, 2, 3] [5, 6, 7] 4 v
        none hok hval
        (by intro j hj; fin_cases hj <;> exact hafter _ (by omega) (by omega))
        (by intro j hj; fin_cases hj <;> exact hbefore _ (by omega))
    · exact handlerLoop_last_match recurse ctx field [0, 1, 2, 3, 4] [6, 7] 5 v
        none hok hval
        (by intro j hj; fin_cases hj <;> exact hafter _ (by omega) (by omega))
        (by intro j hj; fin_cases hj <;> exact hbefore _ (by omega))
    · exact handlerLoop_last_match recurse ctx field [0, 1, 2, 3, 4, 5] [7] 6 v
        none hok hval
        (by intro j hj; fin_cases hj <;> exact hafter _ (by omega) (by omega))
        (by intro j hj; fin_cases hj <;> exact hbefore _ (by omega))
    · exact handlerLoop_last_match recurse ctx field [0, 1, 2, 3, 4, 5, 6] [] 7 v
        none hok hval
        (by intro j hj; simp at hj)
        (by intro j hj; fin_cases hj <;> exact hbefore _ (by omega))
  simp only [processField, hloop]

/-- Witness for C1 (amended): on the two-handler field of the
counterexample, the last matching handler (the nested-serializer one,
index 7) determines the emitted lookup paths. -/
theorem claim_C1_witness :
    processField recurseCourse ctxCourse fieldX =
      .ok [pstr "x", pstr "x__id"] :=
  claim_C1_last_matching_handler_wins recurseCourse ctxCourse fieldX 7
    [pstr "x", pstr "x__id"] (by omega) (by decide) (by decide)
    (fun j h1 h2 => absurd h1 (by omega))
    (by
      intro j hj
      interval_cases j
      · exact Or.inr ⟨[pstr "x"], by decide, by decide⟩
      · exact Or.inl (by decide)
      · exact Or.inl (by decide)
      · exact Or.inl (by decide)
      · exact Or.inl (by decide)
      · exact Or.inl (by decide)
      · exact Or.inl (by decide))

/-- C10.  A `many=True` serializer resolves against its child:
`LookupFinder.__init__` replaces a list serializer by its `child`, so
the lookup list it produces equals the one produced when the child
serializer is passed directly with the same virtual model and
`block_queries` flag. -/
theorem claim_C10_many_resolves_as_child (fuel : Nat) (env : ModelEnv)
    (bq : Bool) (vm : VField) (child : Ser) (h : child.pyMany = false) :
    (LookupFinder.make (Ser.many child) vm bq).recursivelyFind fuel env none =
      (LookupFinder.make child vm bq).recursivelyFind fuel env none := by
  unfold LookupFinder.make
  rw [show (Ser.many child).pyMany = true from rfl, h]
  rfl

/-- Witness for C10 at a concrete serializer. -/
theorem claim_C10_witness :
    (LookupFinder.make (Ser.many nestedSerX) vmCourse true).recursivelyFind
        10 [] none =
      (LookupFinder.make nestedSerX vmCourse true).recursivelyFind
        10 [] none :=
  claim_C10_many_resolves_as_child 10 [] true vmCourse nestedSerX rfl

end DjangoVirtualModels
